import Mathlib

/-!
Shallow embedding of the group_table backend (FastAPI + SQLAlchemy) in Lean 4.

The relational store is modelled as lists of rows (`DB`); SQLAlchemy queries
are modelled as list filters/joins; `scalar_one_or_none` is modelled by
`oneOrNone` (raising, i.e. `Except.error`, on more than one row); handler
bodies are modelled as functions returning `Except ApiError` results, with the
`try/except` wrappers of the source mapped to the corresponding error results.
HTTP status codes are mapped to the abstract error taxonomy of the design
(401 ↦ unauthorized, 403 ↦ forbidden, 404 ↦ notFound, 400 ↦ conflict for
cap/state violations, 500 ↦ internal).
-/

namespace GroupTable


/-- Abstract error taxonomy: 401, 403, 404, 400 (cap/uniqueness/state
violation), 500. -/
inductive ApiError where
  | unauthorized
  | forbidden
  | notFound
  | conflict
  | internal
deriving DecidableEq, Repr

/-- Row of table gt_admins (app/models/admin.py). -/
structure Admin where
  id : Nat
  name : String
  email : String
  hashed_password : String
deriving DecidableEq, Repr

/-- Row of table teachers (app/models/teacher.py). -/
structure Teacher where
  id : Nat
  name : String
  email : String
  hashed_password : String
  admin_id : Nat
deriving DecidableEq, Repr

/-- Row of table gt_groups (app/models/group.py). -/
structure Group where
  id : Nat
  name : String
  code : String
  is_active : Bool
  teacher_id : Nat
deriving DecidableEq, Repr

/-- Row of table gt_students (app/models/student.py). -/
structure Student where
  id : Nat
  full_name : String
  group_id : Nat
deriving DecidableEq, Repr

/-- Row of table modules (app/models/module.py). -/
structure Module where
  id : Nat
  name : String
  is_active : Bool
  is_finished : Bool
  group_id : Nat
deriving DecidableEq, Repr

/-- Row of table gt_lessons (app/models/lesson.py). -/
structure Lesson where
  id : Nat
  name : String
  lesson_number : Nat
  is_active : Bool
  module_id : Nat
deriving DecidableEq, Repr

/-- Row of table gt_criteria (app/models/criteria.py); grading_method is
stored as a string. -/
structure Criteria where
  id : Nat
  name : String
  max_points : Int
  grading_method : String
  module_id : Nat
deriving DecidableEq, Repr

/-- Row of table gt_grades (app/models/grade.py). -/
structure Grade where
  id : Nat
  points_earned : Int
  student_id : Nat
  criteria_id : Nat
  lesson_id : Nat
deriving DecidableEq, Repr

/-- The relational store: one list of rows per table. -/
structure DB where
  admins : List Admin
  teachers : List Teacher
  groups : List Group
  students : List Student
  modules : List Module
  lessons : List Lesson
  criteria : List Criteria
  grades : List Grade
deriving DecidableEq, Repr

/-- SQLAlchemy `scalar_one_or_none()`: `none` on zero rows, the row on exactly
one, and an exception (`Except.error`) on more than one row
(`MultipleResultsFound`). -/
def oneOrNone {α : Type} : List α → Except Unit (Option α)
  | [] => .ok none
  | [a] => .ok (some a)
  | _ :: _ :: _ => .error ()

/-! ## Ranking engine: app/utils/calculations.py -/

/-- The slice of the async session used by `calculate_student_totals`:
each query may raise (`Except.error`), mirroring a store failure or a
`MultipleResultsFound` from `scalar_one_or_none`. -/
structure Session where
  getModule : Nat → Except Unit (Option Module)
  getStudents : Nat → Except Unit (List Student)
  sumGradePoints : Nat → Nat → Except Unit Int

/-- `select(Module).filter(Module.id == module_id)` followed by
`scalar_one_or_none()`. -/
def DB.findModule (db : DB) (module_id : Nat) : Except Unit (Option Module) :=
  oneOrNone (db.modules.filter (fun m => m.id == module_id))

/-- `select(Student).filter(Student.group_id == group_id)`, `.scalars().all()`. -/
def DB.studentsOf (db : DB) (group_id : Nat) : List Student :=
  db.students.filter (fun s => s.group_id == group_id)

/-- `select(func.sum(Grade.points_earned)).join(Lesson, Grade.lesson_id ==
Lesson.id).filter(Grade.student_id == student_id, Lesson.module_id ==
module_id)`, with the SQL `NULL` of an empty sum mapped to 0 by the
source's `or 0`. -/
def DB.sumGradePoints (db : DB) (student_id module_id : Nat) : Int :=
  (db.grades.flatMap (fun g => db.lessons.filterMap (fun l =>
    if g.lesson_id == l.id && g.student_id == student_id && l.module_id == module_id
    then some g.points_earned else none))).sum

/-- The honest session over a concrete store. -/
def DB.session (db : DB) : Session where
  getModule := db.findModule
  getStudents := fun gid => .ok (db.studentsOf gid)
  sumGradePoints := fun sid mid => .ok (db.sumGradePoints sid mid)

/-- One element of `student_totals` before position assignment. -/
structure StudentTotal where
  student_id : Nat
  name : String
  total_points : Int
deriving DecidableEq, Repr

/-- One element of `ranked_students`. -/
structure RankedStudent where
  student_id : Nat
  name : String
  total_points : Int
  position : Nat
deriving DecidableEq, Repr

/-- Stable descending insertion of one entry into a descending-sorted list:
the entry goes in front of the first entry whose total does not exceed it
(so, being the originally earlier element, it precedes equal totals). -/
def orderedInsertDesc (a : StudentTotal) : List StudentTotal → List StudentTotal
  | [] => [a]
  | b :: l =>
    if b.total_points ≤ a.total_points then a :: b :: l
    else b :: orderedInsertDesc a l

/-- `student_totals.sort(key=lambda x: x['total_points'], reverse=True)`:
Python's sort is a stable descending sort by total_points; it is modelled by a
stable insertion sort, which produces the identical list (stable sorts by the
same key agree extensionally). -/
def sortTotalsDesc : List StudentTotal → List StudentTotal
  | [] => []
  | a :: l => orderedInsertDesc a (sortTotalsDesc l)

/-- The position-assignment loop of `calculate_student_totals` for indices
i ≥ 1: `prevPts` is `student_totals[i-1].total_points`, `curPos` is
`current_position`, and `i` is the Python index of the head of the list. -/
def rankLoop : List StudentTotal → Int → Nat → Nat → List RankedStudent
  | [], _, _, _ => []
  | s :: rest, prevPts, curPos, i =>
    let pos := if s.total_points < prevPts then i + 1 else curPos
    ⟨s.student_id, s.name, s.total_points, pos⟩ :: rankLoop rest s.total_points pos (i + 1)

/-- The position-assignment loop of `calculate_student_totals`: index 0 keeps
`current_position = 1` (the `i > 0` guard), then `rankLoop` handles the rest. -/
def assignPositions : List StudentTotal → List RankedStudent
  | [] => []
  | s :: rest => ⟨s.student_id, s.name, s.total_points, 1⟩ :: rankLoop rest s.total_points 1 1

/-- Body of `calculate_student_totals` (inside the `try`): resolve the module
(absent ↦ `[]`), list the group's students (empty ↦ `[]`), sum each student's
grade points over the module's lessons, sort descending and assign positions.
Any raising query aborts the body with `Except.error`. -/
def calcStudentTotalsBody (s : Session) (module_id : Nat) :
    Except Unit (List RankedStudent) := do
  let mod? ← s.getModule module_id
  match mod? with
  | none => return []
  | some m =>
    let students ← s.getStudents m.group_id
    if students.isEmpty then
      return []
    else
      let totals ← students.mapM (fun st => do
        let tp ← s.sumGradePoints st.id module_id
        return (⟨st.id, st.full_name, tp⟩ : StudentTotal))
      return assignPositions (sortTotalsDesc totals)

/-- `calculate_student_totals`: the body wrapped in the source's
`try/except`, which turns every exception into the empty list. -/
def calculate_student_totals (s : Session) (module_id : Nat) : List RankedStudent :=
  match calcStudentTotalsBody s module_id with
  | .ok r => r
  | .error _ => []

/-- The leaderboard of a concrete store. -/
def DB.calcStudentTotals (db : DB) (module_id : Nat) : List RankedStudent :=
  calculate_student_totals db.session module_id

/-! ## Ranking lemmas -/

/-- Number of entries with total strictly above `p`. -/
def countGT (F : List StudentTotal) (p : Int) : Nat :=
  F.countP (fun t => decide (p < t.total_points))

/-- The descending order used by the leaderboard sort. -/
def descTot (a b : StudentTotal) : Prop := b.total_points ≤ a.total_points

/-- The ranked entry produced for a student total at a given position. -/
def withPos (s : StudentTotal) (p : Nat) : RankedStudent :=
  ⟨s.student_id, s.name, s.total_points, p⟩

/-- A concrete store whose module-1 leaderboard has totals 10, 10, 5, 5:
teacher 1 owns group 1, module 1 is group 1's active module with two lessons,
and the four students earn (7+3), 10, 5 and 5 points. -/
def dbTies : DB where
  admins := [⟨1, "Boss", "boss@x", "h"⟩]
  teachers := [⟨1, "T", "t@x", "h", 1⟩]
  groups := [⟨1, "G", "A1", true, 1⟩]
  students := [⟨1, "A", 1⟩, ⟨2, "B", 1⟩, ⟨3, "C", 1⟩, ⟨4, "D", 1⟩]
  modules := [⟨1, "Module 1", true, false, 1⟩]
  lessons := [⟨1, "Lesson 1", 1, false, 1⟩, ⟨2, "Lesson 2", 2, true, 1⟩]
  criteria := [⟨1, "HW", 10, "one_by_one", 1⟩]
  grades := [⟨1, 7, 1, 1, 1⟩, ⟨2, 3, 1, 1, 2⟩, ⟨3, 10, 2, 1, 1⟩,
             ⟨4, 5, 3, 1, 2⟩, ⟨5, 5, 4, 1, 1⟩]

/-- The per-student totals list built by the query loop of
`calculate_student_totals` over a concrete store. -/
def DB.totalsOf (db : DB) (group_id mid : Nat) : List StudentTotal :=
  (db.studentsOf group_id).map
    (fun st => ⟨st.id, st.full_name, db.sumGradePoints st.id mid⟩)

/-- A session every query of which raises. -/
def failSession : Session where
  getModule := fun _ => .error ()
  getStudents := fun _ => .error ()
  sumGradePoints := fun _ _ => .error ()

/-! ## Grade upsert: create_grade in app/api/teacher.py -/

/-- Request body of POST /grades (`GradeCreate` in app/api/teacher.py). -/
structure GradeCreate where
  points_earned : Int
  student_id : Nat
  criteria_id : Nat
  lesson_id : Nat
deriving DecidableEq, Repr

/-- The Lesson ⋈ Module ⋈ Group join of `create_grade`, filtered on lesson id,
owning teacher and active module; rows keep join multiplicity. -/
def lessonOwnedActive (db : DB) (teacher_id lesson_id : Nat) : List Lesson :=
  db.lessons.flatMap (fun l => db.modules.flatMap (fun m => db.groups.filterMap (fun g =>
    if l.module_id == m.id && m.group_id == g.id && l.id == lesson_id &&
       g.teacher_id == teacher_id && m.is_active
    then some l else none)))

/-- The triple-key filter of the existing-grade lookup in `create_grade`. -/
def sameTriple (req : GradeCreate) (g : Grade) : Bool :=
  g.student_id == req.student_id && g.criteria_id == req.criteria_id &&
    g.lesson_id == req.lesson_id

/-- Autoincrement primary key for an inserted grade row. -/
def freshGradeId (db : DB) : Nat := (db.grades.map Grade.id).foldr max 0 + 1

/-- `create_grade`: verify the lesson's ownership chain and that its module is
active (404 otherwise), look up an existing grade by the
(student_id, criteria_id, lesson_id) triple, overwrite its points_earned when
found, insert a new row when not; `scalar_one_or_none` surprises and other
exceptions surface as 500 (`internal`). -/
def create_grade (db : DB) (grade : GradeCreate) (teacher_id : Nat) :
    Except ApiError (DB × Grade) :=
  match oneOrNone (lessonOwnedActive db teacher_id grade.lesson_id) with
  | .error _ => .error .internal
  | .ok none => .error .notFound
  | .ok (some _) =>
    match oneOrNone (db.grades.filter (sameTriple grade)) with
    | .error _ => .error .internal
    | .ok (some g0) =>
      .ok ({ db with grades := db.grades.map (fun g =>
              if sameTriple grade g then { g with points_earned := grade.points_earned }
              else g) },
           { g0 with points_earned := grade.points_earned })
    | .ok none =>
      .ok ({ db with grades := db.grades ++
              [⟨freshGradeId db, grade.points_earned, grade.student_id,
                grade.criteria_id, grade.lesson_id⟩] },
           ⟨freshGradeId db, grade.points_earned, grade.student_id,
            grade.criteria_id, grade.lesson_id⟩)

/-- Two grade rows with the same (student_id, criteria_id, lesson_id) key. -/
def tripleEq (g1 g2 : Grade) : Prop :=
  g1.student_id = g2.student_id ∧ g1.criteria_id = g2.criteria_id ∧
    g1.lesson_id = g2.lesson_id

instance : DecidableRel tripleEq := fun g1 g2 => by
  unfold tripleEq
  infer_instance

/-- The grade-uniqueness invariant: no two rows share the triple key. -/
def GradeInv (db : DB) : Prop :=
  db.grades.Pairwise (fun g1 g2 => ¬ tripleEq g1 g2)

instance (db : DB) : Decidable (GradeInv db) := by
  unfold GradeInv
  infer_instance

/-- A sequence of grade submissions: rejected ones leave the store unchanged
(the handler raises before commit, or rolls back). -/
def submitAll (db : DB) : List (GradeCreate × Nat) → DB
  | [] => db
  | (r, t) :: rest =>
    match create_grade db r t with
    | .ok (db2, _) => submitAll db2 rest
    | .error _ => submitAll db rest

/-! ## Module lifecycle: create_module / finish_module / delete_module -/

/-- `select(Group).filter(Group.id == group_id, Group.teacher_id == teacher_id)`. -/
def groupOwned (db : DB) (group_id teacher_id : Nat) : List Group :=
  db.groups.filter (fun g => g.id == group_id && g.teacher_id == teacher_id)

/-- `select(Module).filter(Module.group_id == group_id, Module.is_active == True)`. -/
def activeModulesOf (db : DB) (group_id : Nat) : List Module :=
  db.modules.filter (fun m => m.group_id == group_id && m.is_active)

/-- Autoincrement primary key for an inserted module row. -/
def freshModuleId (db : DB) : Nat := (db.modules.map Module.id).foldr max 0 + 1

/-- `create_module`: ownership check (404), single-active check (400
"Only one active module allowed per group", mapped to `conflict`), then an
insert named after the group's module count + 1, with the model's column
defaults is_active = true and is_finished = false. -/
def create_module (db : DB) (group_id teacher_id : Nat) :
    Except ApiError (DB × Module) :=
  match oneOrNone (groupOwned db group_id teacher_id) with
  | .error _ => .error .internal
  | .ok none => .error .notFound
  | .ok (some _) =>
    match oneOrNone (activeModulesOf db group_id) with
    | .error _ => .error .internal
    | .ok (some _) => .error .conflict
    | .ok none =>
      .ok ({ db with modules := db.modules ++
              [⟨freshModuleId db,
                "Module " ++ toString
                  ((db.modules.filter (fun m => m.group_id == group_id)).length + 1),
                true, false, group_id⟩] },
           ⟨freshModuleId db,
            "Module " ++ toString
              ((db.modules.filter (fun m => m.group_id == group_id)).length + 1),
            true, false, group_id⟩)

/-- The Module ⋈ Group join of finish/delete, filtered on module id and
owning teacher. -/
def moduleOwned (db : DB) (module_id teacher_id : Nat) : List Module :=
  db.modules.flatMap (fun m => db.groups.filterMap (fun g =>
    if m.id == module_id && m.group_id == g.id && g.teacher_id == teacher_id
    then some m else none))

/-- `finish_module`: resolve by ownership join (404), then set
is_active = false and is_finished = true on the resolved row. -/
def finish_module (db : DB) (module_id teacher_id : Nat) : Except ApiError DB :=
  match oneOrNone (moduleOwned db module_id teacher_id) with
  | .error _ => .error .internal
  | .ok none => .error .notFound
  | .ok (some m) =>
    .ok { db with modules := db.modules.map (fun m2 =>
      if m2.id == m.id then { m2 with is_active := false, is_finished := true }
      else m2) }

/-- `order_by(Module.id.desc()).limit(1)` over a group's modules: the row of
maximal id. -/
def lastModuleOf (db : DB) (group_id : Nat) : Option Module :=
  (db.modules.filter (fun m => m.group_id == group_id)).foldl (fun acc m =>
    match acc with
    | none => some m
    | some b => if b.id < m.id then some m else some b) none

/-- `delete_module`: resolve by ownership join (404), refuse unless the row is
the group's most recent module (400, `conflict`), refuse finished modules
(400, `conflict`), then delete with cascade to lessons, criteria and the
lessons' grades. -/
def delete_module (db : DB) (module_id teacher_id : Nat) : Except ApiError DB :=
  match oneOrNone (moduleOwned db module_id teacher_id) with
  | .error _ => .error .internal
  | .ok none => .error .notFound
  | .ok (some m) =>
    match lastModuleOf db m.group_id with
    | none => .error .conflict
    | some lastm =>
      if lastm.id ≠ module_id then .error .conflict
      else if ¬ m.is_active then .error .conflict
      else
        .ok { db with
          modules := db.modules.filter (fun m2 => !(m2.id == module_id)),
          lessons := db.lessons.filter (fun l => !(l.module_id == module_id)),
          criteria := db.criteria.filter (fun c => !(c.module_id == module_id)),
          grades := db.grades.filter (fun g =>
            !(db.lessons.any (fun l => l.id == g.lesson_id &&
                l.module_id == module_id))) }

/-- The single-active-module invariant: no two module rows are both active in
the same group. -/
def ModuleInv (db : DB) : Prop :=
  db.modules.Pairwise (fun m1 m2 =>
    ¬(m1.is_active = true ∧ m2.is_active = true ∧ m1.group_id = m2.group_id))

instance (db : DB) : Decidable (ModuleInv db) := by
  unfold ModuleInv
  infer_instance

/-! ## Lesson lifecycle: start_lesson / finish_lesson / delete_lesson -/

/-- The Module ⋈ Group join of `start_lesson`, filtered on module id, owning
teacher and active module. -/
def moduleOwnedActive (db : DB) (module_id teacher_id : Nat) : List Module :=
  db.modules.flatMap (fun m => db.groups.filterMap (fun g =>
    if m.id == module_id && m.group_id == g.id && g.teacher_id == teacher_id &&
       m.is_active
    then some m else none))

/-- `select(Lesson).filter(Lesson.module_id == module_id)`. -/
def lessonsOf (db : DB) (module_id : Nat) : List Lesson :=
  db.lessons.filter (fun l => l.module_id == module_id)

/-- `select(Lesson).filter(Lesson.module_id == module_id, Lesson.is_active ==
True)`. -/
def activeLessonsOf (db : DB) (module_id : Nat) : List Lesson :=
  db.lessons.filter (fun l => l.module_id == module_id && l.is_active)

/-- Autoincrement primary key for an inserted lesson row. -/
def freshLessonId (db : DB) : Nat := (db.lessons.map Lesson.id).foldr max 0 + 1

/-- `start_lesson`: active-module ownership check (404), single-active-lesson
check (400, `conflict`), 15-lesson cap (400, `conflict`), then insert with
lesson_number = current count + 1 and is_active = true. -/
def start_lesson (db : DB) (module_id teacher_id : Nat) :
    Except ApiError (DB × Lesson) :=
  match oneOrNone (moduleOwnedActive db module_id teacher_id) with
  | .error _ => .error .internal
  | .ok none => .error .notFound
  | .ok (some _) =>
    match oneOrNone (activeLessonsOf db module_id) with
    | .error _ => .error .internal
    | .ok (some _) => .error .conflict
    | .ok none =>
      if (lessonsOf db module_id).length ≥ 15 then .error .conflict
      else
        .ok ({ db with lessons := db.lessons ++
                [⟨freshLessonId db,
                  "Lesson " ++ toString ((lessonsOf db module_id).length + 1),
                  (lessonsOf db module_id).length + 1, true, module_id⟩] },
             ⟨freshLessonId db,
              "Lesson " ++ toString ((lessonsOf db module_id).length + 1),
              (lessonsOf db module_id).length + 1, true, module_id⟩)

/-- The Lesson ⋈ Module ⋈ Group join of `finish_lesson` and `delete_lesson`,
filtered on lesson id and owning teacher. -/
def lessonOwned (db : DB) (lesson_id teacher_id : Nat) : List Lesson :=
  db.lessons.flatMap (fun l => db.modules.flatMap (fun m =>
    db.groups.filterMap (fun g =>
      if l.id == lesson_id && l.module_id == m.id && m.group_id == g.id &&
         g.teacher_id == teacher_id
      then some l else none)))

/-- `finish_lesson`: resolve by ownership join (404), then set
is_active = false on the resolved row. -/
def finish_lesson (db : DB) (lesson_id teacher_id : Nat) : Except ApiError DB :=
  match oneOrNone (lessonOwned db lesson_id teacher_id) with
  | .error _ => .error .internal
  | .ok none => .error .notFound
  | .ok (some l0) =>
    .ok { db with lessons := db.lessons.map (fun l =>
      if l.id == l0.id then { l with is_active := false } else l) }

/-- Running maximum (by lesson_number) used to model
`order_by(Lesson.lesson_number.desc()).limit(1)`. -/
def maxNumStep (acc : Option Lesson) (l : Lesson) : Option Lesson :=
  match acc with
  | none => some l
  | some b => if b.lesson_number < l.lesson_number then some l else some b

/-- `order_by(Lesson.lesson_number.desc()).limit(1)` over a module's lessons:
the row of maximal lesson_number. -/
def lastLessonOf (db : DB) (module_id : Nat) : Option Lesson :=
  (lessonsOf db module_id).foldl maxNumStep none

/-- `delete_lesson`: resolve by ownership join (404), refuse finished lessons
(400, `conflict`), refuse unless the row is the module's highest-numbered
lesson (400, `conflict`), then delete with cascade to the lesson's grades. -/
def delete_lesson (db : DB) (lesson_id teacher_id : Nat) : Except ApiError DB :=
  match oneOrNone (lessonOwned db lesson_id teacher_id) with
  | .error _ => .error .internal
  | .ok none => .error .notFound
  | .ok (some l0) =>
    if ¬ l0.is_active then .error .conflict
    else
      match lastLessonOf db l0.module_id with
      | none => .error .conflict
      | some lastl =>
        if lastl.id ≠ lesson_id then .error .conflict
        else
          .ok { db with
            lessons := db.lessons.filter (fun l => !(l.id == lesson_id)),
            grades := db.grades.filter (fun g => !(g.lesson_id == lesson_id)) }

/-- The lesson_number values of a module's lessons. -/
def lessonNums (db : DB) (module_id : Nat) : List Nat :=
  (lessonsOf db module_id).map Lesson.lesson_number

/-- The lesson-numbering invariant: lesson ids are unique (primary key), and
every module's lesson_number values are, as a multiset, exactly 1..n for its
lesson count n — contiguous and gapless from 1. -/
def LessonInv (db : DB) : Prop :=
  (db.lessons.map Lesson.id).Nodup ∧
  ∀ mid : Nat, List.Perm (lessonNums db mid)
    (List.range' 1 (lessonNums db mid).length)

/-- One lesson-endpoint call in a trace; failed calls leave the store as is. -/
inductive LessonOp where
  | start (module_id teacher_id : Nat)
  | finish (lesson_id teacher_id : Nat)
  | del (lesson_id teacher_id : Nat)

/-- Apply one lesson operation, keeping the prior state on any error. -/
def applyLessonOp (db : DB) : LessonOp → DB
  | .start mid tid =>
    match start_lesson db mid tid with
    | .ok (db2, _) => db2
    | .error _ => db
  | .finish lid tid =>
    match finish_lesson db lid tid with
    | .ok db2 => db2
    | .error _ => db
  | .del lid tid =>
    match delete_lesson db lid tid with
    | .ok db2 => db2
    | .error _ => db

/-- Apply a trace of lesson operations. -/
def applyLessonOps (db : DB) (ops : List LessonOp) : DB :=
  ops.foldl applyLessonOp db

/-- A store with teacher 1 owning group 1 whose module 1 is active and has no
lessons yet. -/
def dbLessonFresh : DB where
  admins := [⟨1, "Boss", "b@x", "h"⟩]
  teachers := [⟨1, "T", "t@x", "h", 1⟩]
  groups := [⟨1, "G", "A1", true, 1⟩]
  students := []
  modules := [⟨1, "Module 1", true, false, 1⟩]
  lessons := []
  criteria := []
  grades := []

/-! ## Authorization gate: verify_token / require_teacher / require_admin
(app/core/auth.py) -/

/-- Outcome of `jwt.decode` on a presented credential: `err` for any
`JWTError` — a missing/empty, malformed or expired token, or one signed with
a mismatched key — otherwise the claim set with its optional `sub` and
`type` fields. -/
inductive DecodeResult where
  | err
  | payload (sub : Option String) (typ : Option String)
deriving DecidableEq, Repr

/-- The `{user_id, user_type}` dictionary returned by `verify_token`. -/
structure TokenData where
  user_id : Int
  user_type : String
deriving DecidableEq, Repr

/-- Accumulate a non-empty all-digit character list into a number. -/
def digitsAux : List Char → Nat → Option Nat
  | [], acc => some acc
  | c :: cs, acc =>
    if c.isDigit then digitsAux cs (acc * 10 + (c.toNat - 48)) else none

/-- Model of Python `int(str)` on the credential subject: an optional sign
followed by at least one decimal digit; anything else raises ValueError
(`none`). -/
def pyInt? (s : String) : Option Int :=
  match s.data with
  | [] => none
  | '-' :: rest =>
    if rest = [] then none else (digitsAux rest 0).map (fun n => -(n : Int))
  | '+' :: rest =>
    if rest = [] then none else (digitsAux rest 0).map (fun n => (n : Int))
  | cs => (digitsAux cs 0).map (fun n => (n : Int))

/-- `verify_token`: any decode exception is caught and surfaced as 401;
a payload missing `sub` or `type` is 401; a `sub` that does not parse back
to an integer (`int(user_id_str)` raising ValueError) is 401; otherwise the
parsed identity is returned. No path raises 403. -/
def verify_token (d : DecodeResult) : Except ApiError TokenData :=
  match d with
  | .err => .error .unauthorized
  | .payload sub typ =>
    match sub, typ with
    | none, _ => .error .unauthorized
    | some _, none => .error .unauthorized
    | some s, some t =>
      match pyInt? s with
      | none => .error .unauthorized
      | some uid => .ok ⟨uid, t⟩

/-- `require_teacher`: forwards `verify_token` failures unchanged, and only a
successfully verified credential of the wrong role yields 403. -/
def require_teacher (d : DecodeResult) : Except ApiError Int :=
  match verify_token d with
  | .error e => .error e
  | .ok td =>
    if td.user_type ≠ "teacher" then .error .forbidden
    else .ok td.user_id

/-- `require_admin` (app/core/auth.py): same shape with the admin role. -/
def require_admin (d : DecodeResult) : Except ApiError Int :=
  match verify_token d with
  | .error e => .error e
  | .ok td =>
    if td.user_type ≠ "admin" then .error .forbidden
    else .ok td.user_id

/-! ## Email uniqueness at creation: register_admin (app/api/auth.py) and
create_teacher (app/api/admin.py) -/

/-- Request body of POST /register-admin. -/
structure RegisterAdminRequest where
  name : String
  email : String
  password : String
deriving DecidableEq, Repr

/-- Request body of POST /teachers. -/
structure TeacherCreate where
  name : String
  email : String
  password : String
deriving DecidableEq, Repr

/-- ASCII model of Python `str.lower()`, applied to emails before
comparison and storage. -/
def pyLower (s : String) : String :=
  String.mk (s.data.map (fun c =>
    if 'A' ≤ c ∧ c ≤ 'Z' then Char.ofNat (c.toNat + 32) else c))

/-- Autoincrement primary key for an inserted admin row. -/
def freshAdminId (db : DB) : Nat := (db.admins.map Admin.id).foldr max 0 + 1

/-- Autoincrement primary key for an inserted teacher row. -/
def freshTeacherId (db : DB) : Nat := (db.teachers.map Teacher.id).foldr max 0 + 1

/-- `register_admin`: one-time bootstrap — `select(Admin)` via
`scalar_one_or_none` (400 when an admin exists, an exception when several
do), then a check of the Teacher table by lower-cased email (400 when taken),
then insert with the lower-cased email and a password hash produced by the
external hasher `hash`. -/
def register_admin (hash : String → String) (db : DB)
    (req : RegisterAdminRequest) : Except ApiError (DB × Admin) :=
  match oneOrNone db.admins with
  | .error _ => .error .internal
  | .ok (some _) => .error .conflict
  | .ok none =>
    match oneOrNone (db.teachers.filter (fun t => t.email == pyLower req.email)) with
    | .error _ => .error .internal
    | .ok (some _) => .error .conflict
    | .ok none =>
      .ok ({ db with admins := db.admins ++
              [⟨freshAdminId db, req.name, pyLower req.email, hash req.password⟩] },
           ⟨freshAdminId db, req.name, pyLower req.email, hash req.password⟩)

/-- `create_teacher`: the handler performs NO email check of any kind — it
hashes the password and inserts directly; the only failure is the Teacher
table's own unique-email constraint raising at commit (unhandled, a 500). -/
def create_teacher (hash : String → String) (db : DB) (req : TeacherCreate)
    (admin_id : Nat) : Except ApiError (DB × Teacher) :=
  if db.teachers.any (fun t => t.email == req.email) then .error .internal
  else
    .ok ({ db with teachers := db.teachers ++
            [⟨freshTeacherId db, req.name, req.email, hash req.password, admin_id⟩] },
         ⟨freshTeacherId db, req.name, req.email, hash req.password, admin_id⟩)

/-- A store holding exactly one admin whose email is boss@x and no teachers. -/
def dbAdminOnly : DB where
  admins := [⟨1, "A", "boss@x", "h"⟩]
  teachers := []
  groups := []
  students := []
  modules := []
  lessons := []
  criteria := []
  grades := []

/-- A store holding exactly one teacher whose email is t@x and no admins. -/
def dbTeacherOnly : DB where
  admins := []
  teachers := [⟨1, "T", "t@x", "h", 1⟩]
  groups := []
  students := []
  modules := []
  lessons := []
  criteria := []
  grades := []

/-! ## Group-code generator: app/utils/code_generator.py -/

/-- The base-36 digit alphabet '0123456789ABCDEFGHIJKLMNOPQRSTUVWXYZ'. -/
def base36_digits : List Char := "0123456789ABCDEFGHIJKLMNOPQRSTUVWXYZ".data

/-- The while-loop of `base36_encode`, prepending digits. -/
def base36_aux : Nat → String → String
  | 0, acc => acc
  | n + 1, acc =>
    base36_aux ((n + 1) / 36)
      (String.mk [base36_digits.getD ((n + 1) % 36) '0'] ++ acc)
decreasing_by exact Nat.div_lt_self (Nat.succ_pos n) (by omega)

/-- `GroupCodeGenerator.base36_encode`. -/
def base36_encode (number : Nat) : String :=
  if number = 0 then "0" else base36_aux number ""

/-- `f"{n:02d}"`: zero-pad to at least two digits. -/
def pad2 (n : Nat) : String :=
  if n < 10 then "0" ++ toString n else toString n

/-- `f"{n:03d}"`: zero-pad to at least three digits. -/
def pad3 (n : Nat) : String :=
  if n < 10 then "00" ++ toString n
  else if n < 100 then "0" ++ toString n
  else toString n

/-- `chr(ord('A') + k)` as a one-character string. -/
def letterA (k : Nat) : String := String.mk [Char.ofNat (65 + k)]

/-- `GroupCodeGenerator.generate_incremental_code` (group ids are ≥ 1). -/
def generate_incremental_code (group_id : Nat) : String :=
  if group_id ≤ 9 then
    letterA ((group_id - 1) % 26) ++ toString group_id
  else if group_id ≤ 99 then
    letterA (((group_id - 10) / 90) % 26) ++ toString (((group_id - 10) % 90) + 10)
  else if group_id ≤ 999 then
    letterA (((group_id - 100) / 900) % 26) ++ toString (((group_id - 100) % 900) + 100)
  else if group_id ≤ 9999 then
    letterA (((group_id - 1000) / (26 * 99)) % 26) ++
      letterA (((group_id - 1000) / 99) % 26) ++
      pad2 (((group_id - 1000) % 99) + 1)
  else base36_encode group_id

/-- `GroupCodeGenerator.generate_teacher_based_code`: base-36 of the teacher
id truncated to its last two characters, then the group sequence. -/
def generate_teacher_based_code (teacher_id group_sequence : Nat) : String :=
  let teacher_code0 := base36_encode teacher_id
  let teacher_code :=
    if teacher_code0.length > 2 then teacher_code0.drop (teacher_code0.length - 2)
    else teacher_code0
  if group_sequence ≤ 9 then teacher_code ++ toString group_sequence
  else teacher_code ++ pad2 group_sequence

/-- The vowel alphabet of `generate_human_friendly_code`. -/
def hfVowels : List Char := "AEIOU".data

/-- The consonant alphabet of `generate_human_friendly_code`. -/
def hfConsonants : List Char := "BCDFGHJKLMNPQRSTVWXYZ".data

/-- `GroupCodeGenerator.generate_human_friendly_code`. -/
def generate_human_friendly_code (group_id : Nat) : String :=
  if group_id ≤ 500 then
    String.mk [hfConsonants.getD ((group_id - 1) % hfConsonants.length) 'B'] ++
    String.mk [hfVowels.getD (((group_id - 1) / hfConsonants.length) %
      hfVowels.length) 'A'] ++
    (if group_id ≤ 9 then toString group_id
     else if group_id ≤ 99 then pad2 group_id
     else pad3 group_id)
  else
    String.mk [hfConsonants.getD ((group_id - 1) % hfConsonants.length) 'B'] ++
    String.mk [hfVowels.getD (((group_id - 1) / hfConsonants.length) %
      hfVowels.length) 'A'] ++
    String.mk [hfConsonants.getD (((group_id - 1) /
      (hfConsonants.length * hfVowels.length)) % hfConsonants.length) 'B'] ++
    String.mk [hfVowels.getD (((group_id - 1) /
      (hfConsonants.length * hfVowels.length * hfConsonants.length)) %
      hfVowels.length) 'A'] ++
    pad2 (((group_id - 501) % 99) + 1)

/-- `select(func.count(Group.id))` as written in `generate_unique_group_code`
(lines 122 and 136): app/utils/code_generator.py never imports or defines
`Group`, so evaluating this expression raises `NameError` on every call — the
query never reaches the store. -/
def groupCountExpr (db : DB) : Except Unit Nat := .error ()

/-- `select(func.count(Group.id)).filter(Group.teacher_id == teacher_id)`
(line 129): the same undefined `Group`, so the same unconditional
`NameError`. -/
def teacherGroupCountExpr (db : DB) (teacher_id : Nat) : Except Unit Nat :=
  .error ()

/-- `select(Group).filter(Group.code == code)` (line 145), the per-candidate
existence check: again `Group` is undefined in the module, so this raises
`NameError` before any row is consulted. -/
def groupByCodeExpr (db : DB) (code : String) : Except Unit (Option Group) :=
  .error ()

/-- One loop iteration's candidate in `generate_unique_group_code`: the
deterministic strategies first run a count query over the undefined `Group`
(raising `NameError`), with the pure code-shaping helpers applied to the
count that the query would have produced; only the `random` strategy draws a
code without touching `Group` — the draw stream `rng` models
`secrets.choice`, indexed by how many draws happened. -/
def candidateCode (rng : Nat → String) (db : DB) (teacher_id : Nat)
    (strategy : String) (attempt : Nat) : Except Unit String :=
  if strategy == "incremental" then do
    let total ← groupCountExpr db
    pure (generate_incremental_code (total + 1))
  else if strategy == "teacher_based" then do
    let seq ← teacherGroupCountExpr db teacher_id
    pure (generate_teacher_based_code teacher_id (seq + 1))
  else if strategy == "human_friendly" then do
    let total ← groupCountExpr db
    pure (generate_human_friendly_code (total + 1))
  else pure (rng attempt)

/-- The `for attempt in range(max_attempts)` loop of
`generate_unique_group_code`: produce a candidate, check it with
`select(Group).filter(Group.code == code)` (which raises — `Group` is
undefined), retry on a hit; when the attempts run out, return one more random
draw with no uniqueness check (lines 152-154 — unreachable in fact, since
every iteration raises first). An uncaught exception propagates to the
caller. -/
def genLoop (rng : Nat → String) (db : DB) (teacher_id : Nat)
    (strategy : String) : Nat → Nat → Except Unit String
  | 0, attempt => .ok (rng attempt)
  | fuel + 1, attempt => do
    let code ← candidateCode rng db teacher_id strategy attempt
    let existing ← groupByCodeExpr db code
    match existing with
    | some _ => genLoop rng db teacher_id strategy fuel (attempt + 1)
    | none => pure code

/-- `generate_unique_group_code` with max_attempts = 50; `Except.error ()` is
the `NameError` escaping the function. -/
def generate_unique_group_code (rng : Nat → String) (db : DB)
    (teacher_id : Nat) (strategy : String) : Except Unit String :=
  genLoop rng db teacher_id strategy 50 0

/-- A store with two groups (so the incremental count query, had it run,
would have produced candidate "C3", colliding with an existing code). -/
def dbCodes : DB where
  admins := [⟨1, "A", "a@x", "h"⟩]
  teachers := [⟨1, "T", "t@x", "h", 1⟩]
  groups := [⟨1, "G1", "C3", true, 1⟩, ⟨2, "G2", "ABCDEF12", true, 1⟩]
  students := []
  modules := []
  lessons := []
  criteria := []
  grades := []


theorem perm_orderedInsertDesc (a : StudentTotal) (l : List StudentTotal) :
    List.Perm (orderedInsertDesc a l) (a :: l) := by
  induction l with
  | nil => rfl
  | cons b l ih =>
    by_cases h : b.total_points ≤ a.total_points
    · simp [orderedInsertDesc, h]
    · simp only [orderedInsertDesc, if_neg h]
      exact (ih.cons b).trans (List.Perm.swap a b l)

theorem mem_orderedInsertDesc {a e : StudentTotal} {l : List StudentTotal}
    (h : e ∈ orderedInsertDesc a l) : e = a ∨ e ∈ l := by
  have := (perm_orderedInsertDesc a l).mem_iff.mp h
  simpa using this

theorem pairwise_orderedInsertDesc (a : StudentTotal) {l : List StudentTotal}
    (h : l.Pairwise descTot) : (orderedInsertDesc a l).Pairwise descTot := by
  induction l with
  | nil => simp [orderedInsertDesc, List.Pairwise]
  | cons b l ih =>
    rcases List.pairwise_cons.mp h with ⟨hb, hl⟩
    by_cases hle : b.total_points ≤ a.total_points
    · simp only [orderedInsertDesc, if_pos hle]
      refine List.pairwise_cons.mpr ⟨?_, h⟩
      intro e he
      rcases List.mem_cons.mp he with rfl | he
      · exact hle
      · exact le_trans (hb e he) hle
    · simp only [orderedInsertDesc, if_neg hle]
      refine List.pairwise_cons.mpr ⟨?_, ih hl⟩
      intro e he
      rcases mem_orderedInsertDesc he with rfl | he
      · exact le_of_lt (lt_of_not_le hle)
      · exact hb e he

theorem perm_sortTotalsDesc (l : List StudentTotal) :
    List.Perm (sortTotalsDesc l) l := by
  induction l with
  | nil => rfl
  | cons a l ih =>
    exact (perm_orderedInsertDesc a (sortTotalsDesc l)).trans (ih.cons a)

theorem pairwise_sortTotalsDesc (l : List StudentTotal) :
    (sortTotalsDesc l).Pairwise descTot := by
  induction l with
  | nil => simp [sortTotalsDesc, List.Pairwise]
  | cons a l ih => exact pairwise_orderedInsertDesc a ih

/-- Closed form of the position-assignment loop on a descending-sorted tail:
every produced entry is its source entry at position
`1 + (number of entries of the whole list with strictly greater total)`. -/
theorem rankLoop_eq_map (rest : List StudentTotal) :
    ∀ (done : List StudentTotal) (prevPts : Int) (curPos i : Nat),
    i = done.length →
    (∀ e ∈ done, prevPts ≤ e.total_points) →
    (∀ e ∈ rest, e.total_points ≤ prevPts) →
    rest.Pairwise descTot →
    curPos = 1 + countGT done prevPts →
    rankLoop rest prevPts curPos i =
      rest.map (fun s => withPos s (1 + countGT (done ++ rest) s.total_points)) := by
  induction rest with
  | nil => intro done prevPts curPos i _ _ _ _ _; rfl
  | cons s rest ih =>
    intro done prevPts curPos i hi hdone hrest hsorted hpos
    rcases List.pairwise_cons.mp hsorted with ⟨hs, hsorted2⟩
    have hsle : s.total_points ≤ prevPts := hrest s (List.mem_cons_self s rest)
    have htail0 : countGT (s :: rest) s.total_points = 0 := by
      rw [countGT, List.countP_eq_zero]
      intro e he
      rcases List.mem_cons.mp he with rfl | he
      · simp
      · simpa using not_lt_of_le (hs e he)
    by_cases hlt : s.total_points < prevPts
    · have hdonefull : countGT done s.total_points = done.length := by
        rw [countGT, List.countP_eq_length]
        intro e he
        simpa using lt_of_lt_of_le hlt (hdone e he)
      have hhead : 1 + countGT (done ++ s :: rest) s.total_points = i + 1 := by
        rw [countGT, List.countP_append, ← countGT, ← countGT, hdonefull, htail0, hi]
        omega
      have hrec := ih (done ++ [s]) s.total_points (i + 1) (i + 1)
        (by simp [hi])
        (by
          intro e he
          rcases List.mem_append.mp he with he | he
          · exact le_of_lt (lt_of_lt_of_le hlt (hdone e he))
          · simp at he; simp [he])
        hs hsorted2
        (by
          rw [countGT, List.countP_append, ← countGT, ← countGT, hdonefull]
          have h0 : countGT [s] s.total_points = 0 := by simp [countGT]
          rw [h0, hi]
          omega)
      simp only [rankLoop, if_pos hlt]
      rw [hrec]
      have hfix : (done ++ [s]) ++ rest = done ++ s :: rest := by simp
      rw [hfix, List.map_cons]
      congr 1
      simp only [withPos]
      rw [hhead]
    · have heq : s.total_points = prevPts := le_antisymm hsle (not_lt.mp hlt)
      have hdoneeq : countGT done s.total_points = countGT done prevPts := by
        rw [heq]
      have hhead : 1 + countGT (done ++ s :: rest) s.total_points = curPos := by
        rw [countGT, List.countP_append, ← countGT, ← countGT, hdoneeq, htail0, hpos]
        omega
      have hrec := ih (done ++ [s]) s.total_points curPos (i + 1)
        (by simp [hi])
        (by
          intro e he
          rcases List.mem_append.mp he with he | he
          · rw [heq]; exact hdone e he
          · simp at he; simp [he])
        hs hsorted2
        (by
          rw [countGT, List.countP_append, ← countGT, ← countGT, hdoneeq]
          have h0 : countGT [s] s.total_points = 0 := by simp [countGT]
          rw [h0, hpos]
          omega)
      simp only [rankLoop, if_neg hlt]
      rw [hrec]
      have hfix : (done ++ [s]) ++ rest = done ++ s :: rest := by simp
      rw [hfix, List.map_cons]
      congr 1
      simp only [withPos]
      rw [hhead]

/-- Closed form of position assignment on a descending-sorted list. -/
theorem assignPositions_eq_map {F : List StudentTotal} (h : F.Pairwise descTot) :
    assignPositions F = F.map (fun s => withPos s (1 + countGT F s.total_points)) := by
  cases F with
  | nil => rfl
  | cons s rest =>
    rcases List.pairwise_cons.mp h with ⟨hs, hsorted⟩
    have hhead : countGT (s :: rest) s.total_points = 0 := by
      rw [countGT, List.countP_eq_zero]
      intro e he
      rcases List.mem_cons.mp he with rfl | he
      · simp
      · simpa using not_lt_of_le (hs e he)
    have hrec := rankLoop_eq_map rest [s] s.total_points 1 1 (by simp)
      (by intro e he; simp at he; simp [he]) hs hsorted (by simp [countGT])
    simp only [assignPositions]
    rw [hrec]
    have hfix : [s] ++ rest = s :: rest := by simp
    rw [hfix, List.map_cons]
    congr 1
    simp only [withPos]
    rw [hhead]

/-- Every successful body result is either empty or a sorted-and-ranked list. -/
theorem body_shape {s : Session} {mid : Nat} {r : List RankedStudent}
    (hB : calcStudentTotalsBody s mid = .ok r) :
    r = [] ∨ ∃ totals, r = assignPositions (sortTotalsDesc totals) := by
  unfold calcStudentTotalsBody at hB
  cases hm : s.getModule mid with
  | error e => rw [hm] at hB; simp [Bind.bind, Except.bind] at hB
  | ok mo =>
    rw [hm] at hB
    cases mo with
    | none =>
      simp only [Bind.bind, Except.bind, pure, Except.pure, Except.ok.injEq] at hB
      exact Or.inl hB.symm
    | some m =>
      simp only [Bind.bind, Except.bind] at hB
      cases hst : s.getStudents m.group_id with
      | error e => rw [hst] at hB; simp at hB
      | ok students =>
        rw [hst] at hB
        by_cases hemp : students.isEmpty
        · simp only [if_pos hemp, pure, Except.pure, Except.ok.injEq] at hB
          exact Or.inl hB.symm
        · simp only [if_neg hemp] at hB
          split at hB
          · simp at hB
          · simp only [pure, Except.pure, Except.ok.injEq] at hB
            exact Or.inr ⟨_, hB.symm⟩

/-- Every possible output of `calculate_student_totals` is the
position-annotated image of some descending-sorted totals list. -/
theorem calc_shape (s : Session) (mid : Nat) :
    ∃ F : List StudentTotal, F.Pairwise descTot ∧
      calculate_student_totals s mid =
        F.map (fun t => withPos t (1 + countGT F t.total_points)) := by
  unfold calculate_student_totals
  cases hB : calcStudentTotalsBody s mid with
  | error e => exact ⟨[], by simp, by simp⟩
  | ok r =>
    rcases body_shape hB with rfl | ⟨totals, rfl⟩
    · exact ⟨[], by simp, by simp⟩
    · exact ⟨sortTotalsDesc totals, pairwise_sortTotalsDesc totals,
        assignPositions_eq_map (pairwise_sortTotalsDesc totals)⟩

theorem countGT_mono (F : List StudentTotal) {p q : Int} (h : q ≤ p) :
    countGT F p ≤ countGT F q := by
  unfold countGT
  apply List.countP_mono_left
  intro a _ ha
  simp only [decide_eq_true_eq] at ha ⊢
  exact lt_of_le_of_lt h ha

/-- C1: for every module, `calculate_student_totals` assigns standard
competition ranking: each output entry's position is 1 plus the number of
output entries with strictly greater total_points (so equal totals share a
position), the output is ordered by position ascending, and on totals
10, 10, 5, 5 the positions are 1, 1, 3, 3. -/
theorem ranking_is_standard_competition (s : Session) (mid : Nat) :
    (∀ e ∈ calculate_student_totals s mid,
      e.position = 1 + (calculate_student_totals s mid).countP
        (fun r => decide (e.total_points < r.total_points)))
    ∧ (calculate_student_totals s mid).Pairwise (fun x y => x.position ≤ y.position)
    ∧ dbTies.calcStudentTotals 1 =
        [⟨1, "A", 10, 1⟩, ⟨2, "B", 10, 1⟩, ⟨3, "C", 5, 3⟩, ⟨4, "D", 5, 3⟩] := by
  rcases calc_shape s mid with ⟨F, hF, hout⟩
  refine ⟨?_, ?_, by decide⟩
  · intro e he
    rw [hout] at he
    rcases List.mem_map.mp he with ⟨t, htF, rfl⟩
    rw [hout, List.countP_map]
    rfl
  · rw [hout]
    rw [List.pairwise_map]
    refine hF.imp ?_
    intro a b hab
    have := countGT_mono F hab
    simp only [withPos]
    omega

theorem mapM_session (db : DB) (mid : Nat) (students : List Student) :
    students.mapM (fun st =>
      (pure (⟨st.id, st.full_name, db.sumGradePoints st.id mid⟩ : StudentTotal) :
        Except Unit StudentTotal)) =
    .ok (students.map (fun st => ⟨st.id, st.full_name, db.sumGradePoints st.id mid⟩)) := by
  induction students with
  | nil => rfl
  | cons st l ih =>
    rw [List.mapM_cons, ih]
    rfl

/-- When the module id resolves to exactly one module row, the leaderboard of
a concrete store is the sorted-and-ranked totals list of that module's group. -/
theorem calc_db_resolved {db : DB} {mid : Nat} {m : Module}
    (h : db.modules.filter (fun mo => mo.id == mid) = [m]) :
    db.calcStudentTotals mid =
      assignPositions (sortTotalsDesc (db.totalsOf m.group_id mid)) := by
  have hm : db.session.getModule mid = .ok (some m) := by
    simp only [DB.session, DB.findModule, h, oneOrNone]
  unfold DB.calcStudentTotals calculate_student_totals calcStudentTotalsBody
  rw [hm]
  simp only [Bind.bind, Except.bind]
  by_cases hemp : (db.studentsOf m.group_id).isEmpty
  · have hnil : db.studentsOf m.group_id = [] := by
      simpa using hemp
    simp only [DB.session, if_pos hemp, DB.totalsOf, hnil, List.map_nil]
    rfl
  · simp only [DB.session] at hemp ⊢
    rw [if_neg hemp, mapM_session]
    rfl

theorem sumGrade_zero (grades : List Grade) (lessons : List Lesson)
    (sid mid : Nat) (h : ∀ g ∈ grades, g.student_id ≠ sid) :
    (grades.flatMap (fun g => lessons.filterMap (fun l =>
      if g.lesson_id == l.id && g.student_id == sid && l.module_id == mid
      then some g.points_earned else none))).sum = 0 := by
  induction grades with
  | nil => rfl
  | cons g gs ih =>
    have hg : (g.student_id == sid) = false := by
      simpa using h g (List.mem_cons_self g gs)
    have hnil : lessons.filterMap (fun l =>
        if g.lesson_id == l.id && g.student_id == sid && l.module_id == mid
        then some g.points_earned else none) = [] := by
      rw [List.filterMap_eq_nil_iff]
      intro l _
      simp [hg]
    rw [List.flatMap_cons, hnil, List.nil_append]
    exact ih (fun g2 hg2 => h g2 (List.mem_cons_of_mem g hg2))

/-- C2: when the module id resolves, the leaderboard holds exactly one entry
per student of the module's group — totals being the sum of the student's
grade points over the module's lessons, zero when the student has no grade
rows — stated as: the multiset of (id, name, total) triples of the output
equals that of the group's students with their computed sums; every output
entry's total is its student's sum; a student with no grade rows sums to 0;
and under unique student ids each group student appears exactly once. -/
theorem ranking_completeness {db : DB} {mid : Nat} {m : Module}
    (h : db.modules.filter (fun mo => mo.id == mid) = [m]) :
    List.Perm
      ((db.calcStudentTotals mid).map (fun e => (e.student_id, e.name, e.total_points)))
      ((db.studentsOf m.group_id).map
        (fun st => (st.id, st.full_name, db.sumGradePoints st.id mid)))
    ∧ (∀ e ∈ db.calcStudentTotals mid,
        e.total_points = db.sumGradePoints e.student_id mid)
    ∧ (∀ sid : Nat, (∀ g ∈ db.grades, g.student_id ≠ sid) →
        db.sumGradePoints sid mid = 0)
    ∧ ((db.students.map Student.id).Nodup → ∀ st ∈ db.studentsOf m.group_id,
        (db.calcStudentTotals mid).countP (fun e => e.student_id == st.id) = 1) := by
  have hout := calc_db_resolved h
  have hsorted := pairwise_sortTotalsDesc (db.totalsOf m.group_id mid)
  have hmap := assignPositions_eq_map hsorted
  have hperm : List.Perm (sortTotalsDesc (db.totalsOf m.group_id mid))
      (db.totalsOf m.group_id mid) := perm_sortTotalsDesc _
  have hPermTriples : List.Perm
      ((db.calcStudentTotals mid).map (fun e => (e.student_id, e.name, e.total_points)))
      ((db.studentsOf m.group_id).map
        (fun st => (st.id, st.full_name, db.sumGradePoints st.id mid))) := by
    rw [hout, hmap, List.map_map]
    refine List.Perm.trans
      (hperm.map (fun t : StudentTotal => (t.student_id, t.name, t.total_points))) ?_
    rw [DB.totalsOf, List.map_map]
    exact List.Perm.of_eq (by simp [Function.comp])
  refine ⟨hPermTriples, ?_, ?_, ?_⟩
  · intro e he
    rw [hout, hmap] at he
    rcases List.mem_map.mp he with ⟨t, htF, rfl⟩
    have ht2 : t ∈ db.totalsOf m.group_id mid := hperm.mem_iff.mp htF
    rcases List.mem_map.mp ht2 with ⟨st, _, rfl⟩
    rfl
  · intro sid hsid
    exact sumGrade_zero db.grades db.lessons sid mid hsid
  · intro hnodup st hst
    have hcount := hPermTriples.countP_eq
      (fun trip : Nat × String × Int => trip.1 == st.id)
    rw [List.countP_map, List.countP_map] at hcount
    have hL : (db.calcStudentTotals mid).countP (fun e => e.student_id == st.id) =
        (db.studentsOf m.group_id).countP (fun s2 => s2.id == st.id) := hcount
    rw [hL]
    have hsub : (db.studentsOf m.group_id).Sublist db.students :=
      List.filter_sublist db.students
    have hnodup2 : ((db.studentsOf m.group_id).map Student.id).Nodup :=
      (hsub.map Student.id).nodup hnodup
    have hle : (db.studentsOf m.group_id).countP (fun s2 => s2.id == st.id) ≤ 1 := by
      have := List.nodup_iff_count_le_one.mp hnodup2 st.id
      rw [List.count_eq_countP] at this
      rw [List.countP_map] at this
      exact le_trans (le_of_eq (by rfl)) this
    have hpos : 0 < (db.studentsOf m.group_id).countP (fun s2 => s2.id == st.id) := by
      rw [List.countP_pos_iff]
      exact ⟨st, hst, by simp⟩
    omega

/-- Witness for C2 at a concrete store: module 1 of `dbTies` resolves, and the
theorem's totals conclusion holds there. -/
theorem ranking_completeness_witness :
    List.filter (fun mo => mo.id == 1) dbTies.modules = [⟨1, "Module 1", true, false, 1⟩] ∧
    (∀ e ∈ dbTies.calcStudentTotals 1,
      e.total_points = dbTies.sumGradePoints e.student_id 1) :=
  ⟨by decide,
    (@ranking_completeness dbTies 1 ⟨1, "Module 1", true, false, 1⟩ (by decide)).2.1⟩

/-- C9: a module id that does not resolve to a module row yields the empty
leaderboard, not an error. -/
theorem calc_absent_module {db : DB} {mid : Nat}
    (h : db.modules.filter (fun mo => mo.id == mid) = []) :
    db.calcStudentTotals mid = [] := by
  have hm : db.session.getModule mid = .ok none := by
    simp only [DB.session, DB.findModule, h, oneOrNone]
  unfold DB.calcStudentTotals calculate_student_totals calcStudentTotalsBody
  rw [hm]
  rfl

/-- Witness for C9: module id 99 is absent from `dbTies`. -/
theorem calc_absent_module_witness :
    List.filter (fun mo => mo.id == 99) dbTies.modules = [] ∧
    dbTies.calcStudentTotals 99 = [] :=
  ⟨by decide, @calc_absent_module dbTies 99 (by decide)⟩

/-- C10: `calculate_student_totals` is total at its interface — whenever its
body raises (any query or the aggregation failing), the catch-all returns the
empty list, which is exactly what an absent module or a group with no
students also returns, so the caller cannot distinguish the three. -/
theorem calc_total_on_error {s : Session} {mid : Nat} {e : Unit}
    (hB : calcStudentTotalsBody s mid = .error e) :
    calculate_student_totals s mid = []
    ∧ (∀ s2 : Session, ∀ mid2 : Nat, s2.getModule mid2 = .ok none →
        calculate_student_totals s2 mid2 = [])
    ∧ (∀ s3 : Session, ∀ mid3 : Nat, ∀ m : Module,
        s3.getModule mid3 = .ok (some m) → s3.getStudents m.group_id = .ok [] →
        calculate_student_totals s3 mid3 = []) := by
  refine ⟨?_, ?_, ?_⟩
  · unfold calculate_student_totals
    rw [hB]
  · intro s2 mid2 h2
    unfold calculate_student_totals calcStudentTotalsBody
    rw [h2]
    rfl
  · intro s3 mid3 m h3 h4
    unfold calculate_student_totals calcStudentTotalsBody
    rw [h3]
    simp only [Bind.bind, Except.bind]
    rw [h4]
    rfl

/-- Witness for C10: a store failure on the very first query is caught and
surfaces as the empty leaderboard. -/
theorem calc_total_on_error_witness :
    calcStudentTotalsBody failSession 1 = .error () ∧
    calculate_student_totals failSession 1 = [] :=
  ⟨rfl, (@calc_total_on_error failSession 1 () rfl).1⟩

theorem oneOrNone_eq_none {α : Type} {l : List α} (h : oneOrNone l = .ok none) :
    l = [] := by
  cases l with
  | nil => rfl
  | cons a t => cases t <;> simp [oneOrNone] at h

theorem oneOrNone_eq_some {α : Type} {l : List α} {a : α}
    (h : oneOrNone l = .ok (some a)) : l = [a] := by
  cases l with
  | nil => simp [oneOrNone] at h
  | cons b t =>
    cases t with
    | nil => simp [oneOrNone] at h; rw [h]
    | cons c t2 => simp [oneOrNone] at h

theorem sameTriple_of_tripleEq {req : GradeCreate} {g1 g2 : Grade}
    (h : sameTriple req g1) (heq : tripleEq g1 g2) : sameTriple req g2 := by
  unfold sameTriple at h ⊢
  rcases heq with ⟨h1, h2, h3⟩
  simp only [Bool.and_eq_true, beq_iff_eq] at h ⊢
  omega

theorem tripleEq_of_sameTriple {req : GradeCreate} {g1 g2 : Grade}
    (h1 : sameTriple req g1) (h2 : sameTriple req g2) : tripleEq g1 g2 := by
  unfold sameTriple at h1 h2
  unfold tripleEq
  simp only [Bool.and_eq_true, beq_iff_eq] at h1 h2
  omega

theorem filter_triple_le_one_list (r : GradeCreate) (gs : List Grade)
    (hinv : gs.Pairwise (fun g1 g2 => ¬ tripleEq g1 g2)) :
    (gs.filter (sameTriple r)).length ≤ 1 := by
  induction gs with
  | nil => simp
  | cons g gs ih =>
    rcases List.pairwise_cons.mp hinv with ⟨hg, hgs⟩
    by_cases hp : sameTriple r g = true
    · have hnil : gs.filter (sameTriple r) = [] := by
        rw [List.filter_eq_nil_iff]
        intro b hb hpb
        exact hg b hb (tripleEq_of_sameTriple hp hpb)
      simp [hp, hnil]
    · rw [List.filter_cons, if_neg hp]
      exact ih hgs

/-- Under the invariant, at most one row matches any triple key. -/
theorem filter_triple_le_one {db : DB} (hinv : GradeInv db) (r : GradeCreate) :
    (db.grades.filter (sameTriple r)).length ≤ 1 :=
  filter_triple_le_one_list r db.grades hinv

theorem sameTriple_update (req : GradeCreate) (a : Grade) :
    sameTriple req (if sameTriple req a
      then { a with points_earned := req.points_earned } else a) = sameTriple req a := by
  by_cases h : sameTriple req a = true
  · rw [if_pos h]
    unfold sameTriple
    simp
  · rw [if_neg h]

theorem tripleEq_update (req : GradeCreate) (a b : Grade) :
    tripleEq
      (if sameTriple req a then { a with points_earned := req.points_earned } else a)
      (if sameTriple req b then { b with points_earned := req.points_earned } else b)
    ↔ tripleEq a b := by
  unfold tripleEq
  by_cases ha : sameTriple req a = true <;> by_cases hb : sameTriple req b = true <;>
    simp [ha, hb]

/-- Specification of a successful `create_grade`: the invariant is preserved
and afterwards exactly one row matches the submitted triple, carrying the
submitted points. -/
theorem create_grade_ok_spec {db : DB} {req : GradeCreate} {tid : Nat}
    {db2 : DB} {g : Grade} (hinv : GradeInv db)
    (h : create_grade db req tid = .ok (db2, g)) :
    GradeInv db2 ∧
    (db2.grades.filter (sameTriple req)).map Grade.points_earned =
      [req.points_earned] := by
  unfold create_grade at h
  split at h
  · exact absurd h (by simp)
  · exact absurd h (by simp)
  · split at h
    · exact absurd h (by simp)
    · -- update in place
      rename_i gjoin hjoin g0 hfound
      have hfilter : db.grades.filter (sameTriple req) = [g0] := oneOrNone_eq_some hfound
      have hg0 : sameTriple req g0 = true := by
        have : g0 ∈ db.grades.filter (sameTriple req) := by
          rw [hfilter]; exact List.mem_singleton.mpr rfl
        exact (List.mem_filter.mp this).2
      have hdb2 : db2 = { db with grades := db.grades.map (fun a =>
          if sameTriple req a then { a with points_earned := req.points_earned }
          else a) } := by
        have := congrArg Prod.fst (Except.ok.inj h)
        exact this.symm
      subst hdb2
      constructor
      · exact List.Pairwise.map _
          (fun a b hab => fun hc => hab ((tripleEq_update req a b).mp hc)) hinv
      · rw [List.filter_map]
        have hcong : db.grades.filter ((sameTriple req) ∘ (fun a =>
            if sameTriple req a then { a with points_earned := req.points_earned }
            else a)) = db.grades.filter (sameTriple req) := by
          apply List.filter_congr
          intro a _
          exact sameTriple_update req a
        rw [hcong, hfilter]
        simp [hg0]
    · -- insert new row
      rename_i gjoin hjoin hnone
      have hfilter : db.grades.filter (sameTriple req) = [] := oneOrNone_eq_none hnone
      have hnomatch : ∀ a ∈ db.grades, sameTriple req a = false := by
        intro a ha
        by_contra hc
        have : a ∈ db.grades.filter (sameTriple req) :=
          List.mem_filter.mpr ⟨ha, by simpa using hc⟩
        rw [hfilter] at this
        exact absurd this (List.not_mem_nil a)
      have hdb2 : db2 = { db with grades := db.grades ++
          [⟨freshGradeId db, req.points_earned, req.student_id,
            req.criteria_id, req.lesson_id⟩] } := by
        have := congrArg Prod.fst (Except.ok.inj h)
        exact this.symm
      subst hdb2
      have hnewtriple : sameTriple req ⟨freshGradeId db, req.points_earned,
          req.student_id, req.criteria_id, req.lesson_id⟩ = true := by
        unfold sameTriple
        simp
      constructor
      · unfold GradeInv
        rw [List.pairwise_append]
        refine ⟨hinv, by simp, ?_⟩
        intro a ha b hb
        rw [List.mem_singleton.mp hb]
        intro hc
        have : sameTriple req a = true :=
          sameTriple_of_tripleEq hnewtriple
            ⟨hc.1.symm, hc.2.1.symm, hc.2.2.symm⟩
        rw [hnomatch a ha] at this
        exact absurd this (by simp)
      · rw [List.filter_append, hfilter, List.nil_append]
        simp [hnewtriple]

/-- C3: across any sequence of submissions accepted by `create_grade`, at
most one Grade row exists per (student_id, criteria_id, lesson_id) triple
(the invariant also bounds every triple-filter by one row), and any
accepted submission leaves exactly one row for its triple, holding the
points value it submitted — so re-submitting a triple updates in place. -/
theorem grade_upsert_unique :
    (∀ db : DB, GradeInv db → ∀ r : GradeCreate,
      (db.grades.filter (sameTriple r)).length ≤ 1)
    ∧ (∀ (db : DB) (rs : List (GradeCreate × Nat)),
        GradeInv db → GradeInv (submitAll db rs))
    ∧ (∀ (db : DB) (req : GradeCreate) (tid : Nat) (db2 : DB) (g : Grade),
        GradeInv db → create_grade db req tid = .ok (db2, g) →
        GradeInv db2 ∧
        (db2.grades.filter (sameTriple req)).map Grade.points_earned =
          [req.points_earned]) := by
  refine ⟨fun db hinv r => filter_triple_le_one hinv r, ?_,
    fun db req tid db2 g hinv h => create_grade_ok_spec hinv h⟩
  intro db rs
  induction rs generalizing db with
  | nil => intro h; exact h
  | cons p rest ih =>
    intro hinv
    rcases p with ⟨r, t⟩
    unfold submitAll
    cases hc : create_grade db r t with
    | ok res =>
      cases res with
      | mk db2 g => exact ih db2 (create_grade_ok_spec hinv hc).1
    | error e => exact ih db hinv

/-- Witness for C3: in `dbTies` (which satisfies the invariant), submitting
(student 1, criteria 1, lesson 2) with 7 points and then 9 points leaves
exactly one row for the triple, holding 9. -/
theorem grade_upsert_unique_witness :
    GradeInv dbTies
    ∧ GradeInv (submitAll dbTies [(⟨7, 1, 1, 2⟩, 1), (⟨9, 1, 1, 2⟩, 1)])
    ∧ ((submitAll dbTies [(⟨7, 1, 1, 2⟩, 1), (⟨9, 1, 1, 2⟩, 1)]).grades.filter
        (sameTriple ⟨9, 1, 1, 2⟩)).map Grade.points_earned = [(9 : Int)] :=
  ⟨by decide, grade_upsert_unique.2.1 dbTies _ (by decide), by decide⟩

theorem active_le_one_list (gid : Nat) (ms : List Module)
    (hinv : ms.Pairwise (fun m1 m2 =>
      ¬(m1.is_active = true ∧ m2.is_active = true ∧ m1.group_id = m2.group_id))) :
    (ms.filter (fun m => m.group_id == gid && m.is_active)).length ≤ 1 := by
  induction ms with
  | nil => simp
  | cons m ms ih =>
    rcases List.pairwise_cons.mp hinv with ⟨hm, hms⟩
    by_cases hp : (m.group_id == gid && m.is_active) = true
    · have hnil : ms.filter (fun m2 => m2.group_id == gid && m2.is_active) = [] := by
        rw [List.filter_eq_nil_iff]
        intro b hb hpb
        simp only [Bool.and_eq_true, beq_iff_eq] at hp hpb
        exact hm b hb ⟨hp.2, hpb.2, hp.1.trans hpb.1.symm⟩
      simp [hp, hnil]
    · rw [List.filter_cons, if_neg hp]
      exact ih hms

theorem eq_singleton_of_mem_le_one {α : Type} {l : List α} {a : α}
    (ha : a ∈ l) (hl : l.length ≤ 1) : l = [a] := by
  cases l with
  | nil => exact absurd ha (List.not_mem_nil a)
  | cons b t =>
    cases t with
    | nil => rw [List.mem_singleton.mp ha]
    | cons c t2 => simp at hl

/-- C4: at most one module per group is active in every reachable state —
under the invariant any group has at most one active module row;
`create_module` on a group that already has an active module fails with
`conflict` (an error result carries no new store state, so no row is
inserted); and a successful `create_module`, `finish_module` or
`delete_module` preserves the invariant, the latter two never enlarging any
group's set of active modules. -/
theorem module_active_unique :
    (∀ db : DB, ModuleInv db → ∀ gid : Nat, (activeModulesOf db gid).length ≤ 1)
    ∧ (∀ (db : DB) (gid tid : Nat) (g : Group), ModuleInv db →
        groupOwned db gid tid = [g] →
        (∃ m ∈ db.modules, m.group_id = gid ∧ m.is_active = true) →
        create_module db gid tid = .error .conflict)
    ∧ (∀ (db : DB) (gid tid : Nat) (db2 : DB) (m : Module), ModuleInv db →
        create_module db gid tid = .ok (db2, m) → ModuleInv db2)
    ∧ (∀ (db : DB) (mid tid : Nat) (db2 : DB), ModuleInv db →
        finish_module db mid tid = .ok db2 →
        ModuleInv db2 ∧
        ∀ gid, (activeModulesOf db2 gid).length ≤ (activeModulesOf db gid).length)
    ∧ (∀ (db : DB) (mid tid : Nat) (db2 : DB), ModuleInv db →
        delete_module db mid tid = .ok db2 →
        ModuleInv db2 ∧
        ∀ gid, (activeModulesOf db2 gid).length ≤ (activeModulesOf db gid).length) := by
  refine ⟨fun db hinv gid => active_le_one_list gid db.modules hinv, ?_, ?_, ?_, ?_⟩
  · -- conflict on second active module
    intro db gid tid g hinv hown hex
    rcases hex with ⟨a, ha, hgrp, hact⟩
    have hmem : a ∈ activeModulesOf db gid := by
      rw [activeModulesOf, List.mem_filter]
      exact ⟨ha, by simp [hgrp, hact]⟩
    have hone : activeModulesOf db gid = [a] :=
      eq_singleton_of_mem_le_one hmem (active_le_one_list gid db.modules hinv)
    unfold create_module
    rw [hown, hone]
    rfl
  · -- create preserves the invariant
    intro db gid tid db2 m hinv h
    unfold create_module at h
    split at h
    · exact absurd h (by simp)
    · exact absurd h (by simp)
    · split at h
      · exact absurd h (by simp)
      · exact absurd h (by simp)
      · rename_i g hg hnone
        have hempty : activeModulesOf db gid = [] := oneOrNone_eq_none hnone
        have hdb2 : db2 = { db with modules := db.modules ++
            [⟨freshModuleId db,
              "Module " ++ toString
                ((db.modules.filter (fun m2 => m2.group_id == gid)).length + 1),
              true, false, gid⟩] } := by
          have := congrArg Prod.fst (Except.ok.inj h)
          exact this.symm
        subst hdb2
        unfold ModuleInv
        rw [List.pairwise_append]
        refine ⟨hinv, by simp, ?_⟩
        intro a ha b hb hc
        rw [List.mem_singleton.mp hb] at hc
        have : a ∈ activeModulesOf db gid := by
          rw [activeModulesOf, List.mem_filter]
          refine ⟨ha, ?_⟩
          simp only [Bool.and_eq_true, beq_iff_eq]
          exact ⟨hc.2.2, hc.1⟩
        rw [hempty] at this
        exact absurd this (List.not_mem_nil a)
  · -- finish preserves the invariant and shrinks active sets
    intro db mid tid db2 hinv h
    unfold finish_module at h
    split at h
    · exact absurd h (by simp)
    · exact absurd h (by simp)
    · rename_i m hm
      have hdb2 : db2 = { db with modules := db.modules.map (fun m2 =>
          if m2.id == m.id then { m2 with is_active := false, is_finished := true }
          else m2) } := (Except.ok.inj h).symm
      subst hdb2
      have hfact : ∀ m2 : Module,
          ((if m2.id == m.id then
              { m2 with is_active := false, is_finished := true }
            else m2).is_active = true → m2.is_active = true) ∧
          (if m2.id == m.id then
              { m2 with is_active := false, is_finished := true }
            else m2).group_id = m2.group_id := by
        intro m2
        by_cases hid : (m2.id == m.id) = true
        · rw [if_pos hid]
          exact ⟨by intro hfalse; exact absurd hfalse (by simp), rfl⟩
        · rw [if_neg hid]
          exact ⟨fun hh => hh, rfl⟩
      constructor
      · exact List.Pairwise.map _
          (fun a b hab hc => hab ⟨(hfact a).1 hc.1, (hfact b).1 hc.2.1,
            ((hfact a).2.symm.trans hc.2.2).trans (hfact b).2⟩) hinv
      · intro gid
        unfold activeModulesOf
        rw [← List.countP_eq_length_filter, ← List.countP_eq_length_filter]
        rw [List.countP_map]
        apply List.countP_mono_left
        intro a _ ha
        simp only [Function.comp_apply] at ha
        have hsplit := Bool.and_eq_true_iff.mp ha
        have hga : a.group_id = gid :=
          (hfact a).2.symm.trans (beq_iff_eq.mp hsplit.1)
        exact Bool.and_eq_true_iff.mpr ⟨beq_iff_eq.mpr hga, (hfact a).1 hsplit.2⟩
  · -- delete preserves the invariant and shrinks active sets
    intro db mid tid db2 hinv h
    unfold delete_module at h
    split at h
    · exact absurd h (by simp)
    · exact absurd h (by simp)
    · rename_i m hm
      split at h
      · exact absurd h (by simp)
      · rename_i lastm hlast
        split at h
        · exact absurd h (by simp)
        · split at h
          · exact absurd h (by simp)
          · have hdb2 : db2.modules =
                db.modules.filter (fun m2 => !(m2.id == mid)) := by
              rw [← Except.ok.inj h]
            constructor
            · unfold ModuleInv
              rw [hdb2]
              exact List.Pairwise.sublist (List.filter_sublist db.modules) hinv
            · intro gid
              unfold activeModulesOf
              rw [hdb2]
              exact List.Sublist.length_le
                (List.Sublist.filter _ (List.filter_sublist db.modules))

/-- Witness for C4: `dbTies` satisfies the invariant, its group 1 is owned by
teacher 1 and already has the active module 1, so creating a second module in
group 1 fails with `conflict`. -/
theorem module_active_unique_witness :
    ModuleInv dbTies ∧ create_module dbTies 1 1 = .error .conflict :=
  ⟨by decide,
    module_active_unique.2.1 dbTies 1 1 ⟨1, "G", "A1", true, 1⟩
      (by decide) (by decide) (by decide)⟩

theorem le_foldr_max (l : List Nat) : ∀ x ∈ l, x ≤ l.foldr max 0 := by
  induction l with
  | nil => intro x hx; exact absurd hx (List.not_mem_nil x)
  | cons a t ih =>
    intro x hx
    rcases List.mem_cons.mp hx with rfl | hx
    · exact le_max_left x (t.foldr max 0)
    · exact le_trans (ih x hx) (le_max_right a (t.foldr max 0))

theorem freshLessonId_not_mem (db : DB) :
    freshLessonId db ∉ db.lessons.map Lesson.id := by
  intro hmem
  have := le_foldr_max (db.lessons.map Lesson.id) _ hmem
  unfold freshLessonId at this
  omega

theorem mem_lessonOwned {db : DB} {lid tid : Nat} {l : Lesson}
    (h : l ∈ lessonOwned db lid tid) : l ∈ db.lessons ∧ l.id = lid := by
  simp only [lessonOwned, List.mem_flatMap, List.mem_filterMap] at h
  rcases h with ⟨l2, hl2, m, hm, g, hg, hif⟩
  by_cases hc : (l2.id == lid && l2.module_id == m.id && m.group_id == g.id &&
      g.teacher_id == tid) = true
  · rw [if_pos hc] at hif
    cases hif
    simp only [Bool.and_eq_true, beq_iff_eq] at hc
    exact ⟨hl2, hc.1.1.1⟩
  · rw [if_neg hc] at hif
    exact absurd hif (by simp)

theorem maxNumStep_ne_none (acc : Option Lesson) (l : Lesson) :
    maxNumStep acc l ≠ none := by
  intro h
  cases acc with
  | none => simp [maxNumStep] at h
  | some b =>
    simp only [maxNumStep] at h
    by_cases hlt : b.lesson_number < l.lesson_number
    · rw [if_pos hlt] at h
      exact absurd h (by simp)
    · rw [if_neg hlt] at h
      exact absurd h (by simp)

theorem maxNumStep_spec (acc : Option Lesson) (l c : Lesson)
    (hc : maxNumStep acc l = some c) :
    l.lesson_number ≤ c.lesson_number ∧ (c = l ∨ acc = some c) ∧
    (∀ b, acc = some b → b.lesson_number ≤ c.lesson_number) := by
  cases acc with
  | none =>
    simp only [maxNumStep] at hc
    have hcl : c = l := (Option.some.inj hc).symm
    subst hcl
    exact ⟨le_refl _, Or.inl rfl, fun b hb => by cases hb⟩
  | some b =>
    simp only [maxNumStep] at hc
    by_cases hlt : b.lesson_number < l.lesson_number
    · rw [if_pos hlt] at hc
      have hcl : c = l := (Option.some.inj hc).symm
      subst hcl
      refine ⟨le_refl _, Or.inl rfl, ?_⟩
      intro b2 hb2
      rw [← Option.some.inj hb2]
      omega
    · rw [if_neg hlt] at hc
      have hcb : c = b := (Option.some.inj hc).symm
      subst hcb
      refine ⟨by omega, Or.inr rfl, ?_⟩
      intro b2 hb2
      rw [← Option.some.inj hb2]

theorem foldl_maxNumStep_spec : ∀ (ls : List Lesson) (acc : Option Lesson)
    (res : Lesson), ls.foldl maxNumStep acc = some res →
    (res ∈ ls ∨ acc = some res) ∧
    (∀ l ∈ ls, l.lesson_number ≤ res.lesson_number) ∧
    (∀ b, acc = some b → b.lesson_number ≤ res.lesson_number) := by
  intro ls
  induction ls with
  | nil =>
    intro acc res h
    refine ⟨Or.inr h, by simp, ?_⟩
    intro b hb
    rw [hb] at h
    rw [Option.some.inj h]
  | cons hd tl ih =>
    intro acc res h
    rw [List.foldl_cons] at h
    cases hstep : maxNumStep acc hd with
    | none => exact absurd hstep (maxNumStep_ne_none acc hd)
    | some c =>
      rw [hstep] at h
      rcases ih (some c) res h with ⟨hmem, hbound, hacc⟩
      rcases maxNumStep_spec acc hd c hstep with ⟨hdc, hcsrc, haccc⟩
      have hcres : c.lesson_number ≤ res.lesson_number := hacc c rfl
      refine ⟨?_, ?_, ?_⟩
      · rcases hmem with hmem | hmem
        · exact Or.inl (List.mem_cons_of_mem hd hmem)
        · have hceq : c = res := Option.some.inj hmem
          subst hceq
          rcases hcsrc with hch | hsrc
          · rw [hch]
            exact Or.inl (List.mem_cons_self hd tl)
          · exact Or.inr hsrc
      · intro l hl
        rcases List.mem_cons.mp hl with rfl | hl
        · exact le_trans hdc hcres
        · exact hbound l hl
      · intro b hb
        exact le_trans (haccc b hb) hcres

theorem lastLessonOf_spec {db : DB} {mid : Nat} {lastl : Lesson}
    (h : lastLessonOf db mid = some lastl) :
    lastl ∈ lessonsOf db mid ∧
    ∀ l ∈ lessonsOf db mid, l.lesson_number ≤ lastl.lesson_number := by
  rcases foldl_maxNumStep_spec (lessonsOf db mid) none lastl h with ⟨hmem, hbound, _⟩
  rcases hmem with hmem | hmem
  · exact ⟨hmem, hbound⟩
  · exact absurd hmem (by simp)

theorem filter_ne_id_eq_erase : ∀ (ls : List Lesson) (l0 : Lesson),
    (ls.map Lesson.id).Nodup → l0 ∈ ls →
    ls.filter (fun l => !(l.id == l0.id)) = ls.erase l0 := by
  intro ls
  induction ls with
  | nil => intro l0 _ h; exact absurd h (List.not_mem_nil l0)
  | cons h t ih =>
    intro l0 hnd hmem
    rw [List.map_cons, List.nodup_cons] at hnd
    by_cases heq : h = l0
    · subst heq
      rw [List.erase_cons_head]
      have hcond : (!(h.id == h.id)) = false := by simp
      rw [List.filter_cons, hcond]
      simp only [Bool.false_eq_true, if_false]
      apply List.filter_eq_self.mpr
      intro b hb
      have : b.id ≠ h.id := by
        intro hbid
        exact hnd.1 (hbid ▸ List.mem_map_of_mem Lesson.id hb)
      simp [this]
    · have hl0t : l0 ∈ t := by
        rcases List.mem_cons.mp hmem with rfl | hm
        · exact absurd rfl heq
        · exact hm
      have hid : h.id ≠ l0.id := by
        intro hbid
        exact hnd.1 (hbid ▸ List.mem_map_of_mem Lesson.id hl0t)
      have hcond : (!(h.id == l0.id)) = true := by simp [hid]
      rw [List.filter_cons, hcond]
      simp only [if_true]
      rw [List.erase_cons_tail]
      · rw [ih l0 hnd.2 hl0t]
      · simp [heq]

theorem map_eq_of_eq_on {α β : Type} (f g : α → β) (l : List α)
    (h : ∀ a ∈ l, f a = g a) : l.map f = l.map g := by
  induction l with
  | nil => rfl
  | cons a t ih =>
    rw [List.map_cons, List.map_cons, h a (List.mem_cons_self a t),
      ih (fun b hb => h b (List.mem_cons_of_mem a hb))]

theorem filter_swap {α : Type} (p q : α → Bool) (l : List α) :
    (l.filter p).filter q = (l.filter q).filter p := by
  rw [List.filter_filter, List.filter_filter]
  apply List.filter_congr
  intro a _
  rw [Bool.and_comm]

/-- Specification of a successful `start_lesson`: the invariant is preserved,
the created lesson is numbered (current count) + 1 and appended to the store. -/
theorem start_lesson_ok_spec {db : DB} {mid tid : Nat} {db2 : DB} {l : Lesson}
    (hinv : LessonInv db) (h : start_lesson db mid tid = .ok (db2, l)) :
    LessonInv db2 ∧ l.lesson_number = (lessonsOf db mid).length + 1 ∧
    db2.lessons = db.lessons ++ [l] := by
  unfold start_lesson at h
  split at h
  · exact absurd h (by simp)
  · exact absurd h (by simp)
  · split at h
    · exact absurd h (by simp)
    · exact absurd h (by simp)
    · split at h
      · exact absurd h (by simp)
      · have hpair := Except.ok.inj h
        have hdb2 : db2 = { db with lessons := db.lessons ++
            [⟨freshLessonId db,
              "Lesson " ++ toString ((lessonsOf db mid).length + 1),
              (lessonsOf db mid).length + 1, true, mid⟩] } :=
          (congrArg Prod.fst hpair).symm
        have hl : l = ⟨freshLessonId db,
            "Lesson " ++ toString ((lessonsOf db mid).length + 1),
            (lessonsOf db mid).length + 1, true, mid⟩ :=
          (congrArg Prod.snd hpair).symm
        subst hdb2
        subst hl
        refine ⟨⟨?_, ?_⟩, rfl, rfl⟩
        · rw [List.map_append, List.nodup_append]
          refine ⟨hinv.1, by simp, ?_⟩
          intro a ha hb
          simp only [List.map_cons, List.map_nil, List.mem_singleton] at hb
          subst hb
          exact freshLessonId_not_mem db ha
        · intro mid2
          by_cases hm : mid2 = mid
          · subst hm
            have hsplit : lessonNums { db with lessons := db.lessons ++
                [⟨freshLessonId db,
                  "Lesson " ++ toString ((lessonsOf db mid2).length + 1),
                  (lessonsOf db mid2).length + 1, true, mid2⟩] } mid2 =
                lessonNums db mid2 ++ [(lessonsOf db mid2).length + 1] := by
              unfold lessonNums lessonsOf
              rw [List.filter_append, List.map_append]
              congr 1
              simp
            rw [hsplit]
            have hlen : (lessonNums db mid2).length = (lessonsOf db mid2).length :=
              List.length_map _ _
            have hbase := hinv.2 mid2
            rw [hlen] at hbase
            have happ := List.Perm.append hbase
              (List.Perm.refl [(lessonsOf db mid2).length + 1])
            have hconcat : List.range' 1 ((lessonsOf db mid2).length + 1) =
                List.range' 1 (lessonsOf db mid2).length ++
                  [(lessonsOf db mid2).length + 1] := by
              rw [List.range'_1_concat]
              congr 1
              rw [Nat.add_comm]
            rw [List.length_append, hlen]
            simp only [List.length_cons, List.length_nil]
            rw [hconcat]
            exact happ
          · have hsame : lessonNums { db with lessons := db.lessons ++
                [⟨freshLessonId db,
                  "Lesson " ++ toString ((lessonsOf db mid).length + 1),
                  (lessonsOf db mid).length + 1, true, mid⟩] } mid2 =
                lessonNums db mid2 := by
              unfold lessonNums lessonsOf
              rw [List.filter_append, List.map_append]
              have : (mid == mid2) = false := by
                simp
                intro hc
                exact hm hc.symm
              simp [this]
            rw [hsame]
            exact hinv.2 mid2

/-- Specification of a successful `finish_lesson`: lesson ids, numbers and
module assignments are untouched, so the invariant is preserved. -/
theorem finish_lesson_ok_spec {db : DB} {lid tid : Nat} {db2 : DB}
    (hinv : LessonInv db) (h : finish_lesson db lid tid = .ok db2) :
    LessonInv db2 ∧ ∀ mid, lessonNums db2 mid = lessonNums db mid := by
  unfold finish_lesson at h
  split at h
  · exact absurd h (by simp)
  · exact absurd h (by simp)
  · rename_i l0 hjoin
    have hdb2 : db2 = { db with lessons := db.lessons.map (fun l =>
        if l.id == l0.id then { l with is_active := false } else l) } :=
      (Except.ok.inj h).symm
    subst hdb2
    have hfid : ∀ l : Lesson,
        (if l.id == l0.id then { l with is_active := false } else l).id = l.id := by
      intro l
      by_cases hc : (l.id == l0.id) = true
      · rw [if_pos hc]
      · rw [if_neg hc]
    have hfmod : ∀ l : Lesson,
        (if l.id == l0.id then { l with is_active := false } else l).module_id =
          l.module_id := by
      intro l
      by_cases hc : (l.id == l0.id) = true
      · rw [if_pos hc]
      · rw [if_neg hc]
    have hfnum : ∀ l : Lesson,
        (if l.id == l0.id then { l with is_active := false } else l).lesson_number =
          l.lesson_number := by
      intro l
      by_cases hc : (l.id == l0.id) = true
      · rw [if_pos hc]
      · rw [if_neg hc]
    have hnums : ∀ mid, lessonNums { db with lessons := db.lessons.map (fun l =>
        if l.id == l0.id then { l with is_active := false } else l) } mid =
        lessonNums db mid := by
      intro mid
      unfold lessonNums lessonsOf
      rw [List.filter_map, List.map_map]
      have h1 : db.lessons.filter ((fun l : Lesson => l.module_id == mid) ∘
          (fun l => if l.id == l0.id then { l with is_active := false } else l)) =
          db.lessons.filter (fun l => l.module_id == mid) := by
        apply List.filter_congr
        intro a _
        simp only [Function.comp_apply]
        rw [hfmod a]
      rw [h1]
      apply map_eq_of_eq_on
      intro a _
      simp only [Function.comp_apply]
      rw [hfnum a]
    refine ⟨⟨?_, ?_⟩, hnums⟩
    · rw [List.map_map]
      have h1 : db.lessons.map (Lesson.id ∘
          (fun l => if l.id == l0.id then { l with is_active := false } else l)) =
          db.lessons.map Lesson.id := by
        apply map_eq_of_eq_on
        intro a _
        simp only [Function.comp_apply]
        rw [hfid a]
      rw [h1]
      exact hinv.1
    · intro mid
      rw [hnums mid]
      exact hinv.2 mid

/-- Specification of a successful `delete_lesson`: the deleted row is an
active lesson of maximal lesson_number in its module (tail deletion only),
only that row leaves the lessons table, and the numbering invariant is
preserved. -/
theorem delete_lesson_ok_spec {db : DB} {lid tid : Nat} {db2 : DB}
    (hinv : LessonInv db) (h : delete_lesson db lid tid = .ok db2) :
    LessonInv db2 ∧
    ∃ l0 ∈ db.lessons, l0.id = lid ∧ l0.is_active = true ∧
      (∀ l2 ∈ lessonsOf db l0.module_id, l2.lesson_number ≤ l0.lesson_number) ∧
      db2.lessons = db.lessons.filter (fun l2 => !(l2.id == lid)) := by
  unfold delete_lesson at h
  split at h
  · exact absurd h (by simp)
  · exact absurd h (by simp)
  · rename_i l0 hjoin
    split at h
    · exact absurd h (by simp)
    · rename_i hactneg
      split at h
      · exact absurd h (by simp)
      · rename_i lastl hlast
        split at h
        · exact absurd h (by simp)
        · rename_i hlidne
          have hJ : lessonOwned db lid tid = [l0] := oneOrNone_eq_some hjoin
          have hl0join : l0 ∈ lessonOwned db lid tid := by
            rw [hJ]
            exact List.mem_singleton.mpr rfl
          obtain ⟨hl0mem, hl0id⟩ := mem_lessonOwned hl0join
          have hact : l0.is_active = true := not_not.mp hactneg
          have hlastid : lastl.id = lid := not_ne_iff.mp hlidne
          obtain ⟨hlastmem, hlastmax⟩ := lastLessonOf_spec hlast
          have hlastlessons : lastl ∈ db.lessons := (List.mem_filter.mp hlastmem).1
          have hll : lastl = l0 :=
            List.inj_on_of_nodup_map hinv.1 hlastlessons hl0mem
              (by rw [hlastid, hl0id])
          have hmax : ∀ l2 ∈ lessonsOf db l0.module_id,
              l2.lesson_number ≤ l0.lesson_number := by
            intro l2 hl2
            have := hlastmax l2 hl2
            rw [hll] at this
            exact this
          have hdb2 : db2 = { db with
              lessons := db.lessons.filter (fun l => !(l.id == lid)),
              grades := db.grades.filter (fun g => !(g.lesson_id == lid)) } :=
            (Except.ok.inj h).symm
          subst hdb2
          have hl0inj : ∀ b ∈ db.lessons, b.id = lid → b = l0 := by
            intro b hb hbid
            exact List.inj_on_of_nodup_map hinv.1 hb hl0mem (by rw [hbid, hl0id])
          refine ⟨⟨?_, ?_⟩, l0, hl0mem, hl0id, hact, hmax, rfl⟩
          · exact List.Nodup.sublist
              (List.Sublist.map Lesson.id (List.filter_sublist db.lessons)) hinv.1
          · intro mid2
            by_cases hm : mid2 = l0.module_id
            · rw [hm]
              have hl0inls : l0 ∈ lessonsOf db l0.module_id := by
                unfold lessonsOf
                exact List.mem_filter.mpr ⟨hl0mem, by simp⟩
              have hndls : ((lessonsOf db l0.module_id).map Lesson.id).Nodup :=
                List.Nodup.sublist
                  (List.Sublist.map Lesson.id (List.filter_sublist db.lessons))
                  hinv.1
              have herase : (lessonsOf db l0.module_id).filter (fun l => !(l.id == lid)) =
                  (lessonsOf db l0.module_id).erase l0 := by
                rw [show lid = l0.id from hl0id.symm]
                exact filter_ne_id_eq_erase (lessonsOf db l0.module_id) l0 hndls hl0inls
              have hnums2 : lessonNums { db with
                  lessons := db.lessons.filter (fun l => !(l.id == lid)),
                  grades := db.grades.filter (fun g => !(g.lesson_id == lid)) } l0.module_id =
                  ((lessonsOf db l0.module_id).erase l0).map Lesson.lesson_number := by
                unfold lessonNums lessonsOf
                rw [show ({ db with
                    lessons := db.lessons.filter (fun l => !(l.id == lid)),
                    grades := db.grades.filter (fun g => !(g.lesson_id == lid)) } :
                      DB).lessons =
                    db.lessons.filter (fun l => !(l.id == lid)) from rfl]
                rw [filter_swap]
                unfold lessonsOf at herase
                rw [herase]
              rw [hnums2]
              have hconsperm : List.Perm (lessonsOf db l0.module_id)
                  (l0 :: (lessonsOf db l0.module_id).erase l0) :=
                List.perm_cons_erase hl0inls
              have hnumsperm : List.Perm (lessonNums db l0.module_id)
                  (l0.lesson_number ::
                    ((lessonsOf db l0.module_id).erase l0).map Lesson.lesson_number) := by
                unfold lessonNums
                have := hconsperm.map Lesson.lesson_number
                rw [List.map_cons] at this
                exact this
              have hbase := hinv.2 l0.module_id
              have hl0num_mem : l0.lesson_number ∈ lessonNums db l0.module_id :=
                List.mem_map_of_mem Lesson.lesson_number hl0inls
              have hkpos : 1 ≤ (lessonNums db l0.module_id).length :=
                List.length_pos.mpr (List.ne_nil_of_mem hl0num_mem)
              obtain ⟨k0, hk⟩ : ∃ k0, (lessonNums db l0.module_id).length = k0 + 1 :=
                ⟨(lessonNums db l0.module_id).length - 1, by omega⟩
              have hle : l0.lesson_number ≤ k0 + 1 := by
                have := hbase.mem_iff.mp hl0num_mem
                rw [hk] at this
                have := (List.mem_range'_1.mp this).2
                omega
              have hge : k0 + 1 ≤ l0.lesson_number := by
                have hkmem : k0 + 1 ∈ List.range' 1 (lessonNums db l0.module_id).length := by
                  rw [hk]
                  exact List.mem_range'_1.mpr ⟨by omega, by omega⟩
                have := hbase.mem_iff.mpr hkmem
                rcases List.mem_map.mp this with ⟨l2, hl2, hl2num⟩
                have := hmax l2 hl2
                omega
              have heqk : l0.lesson_number = k0 + 1 := le_antisymm hle hge
              have h1 : List.Perm (l0.lesson_number ::
                  ((lessonsOf db l0.module_id).erase l0).map Lesson.lesson_number)
                  (List.range' 1 (k0 + 1)) := by
                have := hnumsperm.symm.trans hbase
                rw [hk] at this
                exact this
              rw [heqk] at h1
              have h2 : List.range' 1 (k0 + 1) = List.range' 1 k0 ++ [k0 + 1] := by
                rw [List.range'_1_concat]
                congr 1
                rw [Nat.add_comm]
              have h3 : List.Perm (List.range' 1 k0 ++ [k0 + 1])
                  ((k0 + 1) :: List.range' 1 k0) := List.perm_append_singleton _ _
              have h4 : List.Perm
                  ((k0 + 1) :: ((lessonsOf db l0.module_id).erase l0).map Lesson.lesson_number)
                  ((k0 + 1) :: List.range' 1 k0) := by
                refine h1.trans ?_
                rw [h2]
                exact h3
              have h5 := h4.cons_inv
              have hlen2 : (((lessonsOf db l0.module_id).erase l0).map
                  Lesson.lesson_number).length = k0 := by
                have := hnumsperm.length_eq
                rw [hk] at this
                simp only [List.length_cons] at this
                omega
              rw [hlen2]
              exact h5
            · have hkeep : (lessonsOf db mid2).filter (fun l => !(l.id == lid)) =
                  lessonsOf db mid2 := by
                apply List.filter_eq_self.mpr
                intro b hb
                have hbmem : b ∈ db.lessons := (List.mem_filter.mp hb).1
                have hbmod : (b.module_id == mid2) = true := (List.mem_filter.mp hb).2
                simp only [Bool.not_eq_eq_eq_not, Bool.not_true, beq_eq_false_iff_ne,
                  ne_eq]
                intro hbid
                have hbl0 : b = l0 := hl0inj b hbmem hbid
                rw [hbl0] at hbmod
                exact hm (beq_iff_eq.mp hbmod).symm
              have hnums2 : lessonNums { db with
                  lessons := db.lessons.filter (fun l => !(l.id == lid)),
                  grades := db.grades.filter (fun g => !(g.lesson_id == lid)) } mid2 =
                  lessonNums db mid2 := by
                unfold lessonNums lessonsOf
                rw [show ({ db with
                    lessons := db.lessons.filter (fun l => !(l.id == lid)),
                    grades := db.grades.filter (fun g => !(g.lesson_id == lid)) } :
                      DB).lessons =
                    db.lessons.filter (fun l => !(l.id == lid)) from rfl]
                rw [filter_swap]
                unfold lessonsOf at hkeep
                rw [hkeep]
              rw [hnums2]
              exact hinv.2 mid2

/-- C5 counterexample: lesson numbers ARE reused. Starting a lesson in the
fresh module assigns lesson_number 1; deleting that (tail) lesson and starting
another assigns lesson_number 1 again to the newly created lesson — the
number of the deleted lesson is reassigned, refuting "a lesson_number is
never reused". -/
theorem lesson_number_reused :
    (applyLessonOps dbLessonFresh [.start 1 1]).lessons.map Lesson.lesson_number = [1]
    ∧ (applyLessonOps dbLessonFresh [.start 1 1, .del 1 1]).lessons = []
    ∧ (applyLessonOps dbLessonFresh
        [.start 1 1, .del 1 1, .start 1 1]).lessons.map Lesson.lesson_number = [1] := by
  refine ⟨by decide, by decide, by decide⟩

/-- C5 (amended): `start_lesson` assigns lesson_number = (current module
lesson count) + 1; `delete_lesson` removes only the highest-numbered lesson
of its module; every reachable state keeps each module's lesson numbers a
permutation of 1..n (contiguous, gapless, no duplicates) — but the number of
a deleted tail lesson may be reassigned to a later-created lesson. -/
theorem lesson_numbering_contiguous :
    (∀ (db : DB) (ops : List LessonOp), LessonInv db →
      LessonInv (applyLessonOps db ops))
    ∧ (∀ db : DB, LessonInv db → ∀ mid : Nat,
        List.Perm (lessonNums db mid) (List.range' 1 (lessonNums db mid).length) ∧
        (lessonNums db mid).Nodup)
    ∧ (∀ (db : DB) (mid tid : Nat) (db2 : DB) (l : Lesson),
        LessonInv db → start_lesson db mid tid = .ok (db2, l) →
        l.lesson_number = (lessonsOf db mid).length + 1)
    ∧ (∀ (db : DB) (lid tid : Nat) (db2 : DB),
        LessonInv db → delete_lesson db lid tid = .ok db2 →
        ∃ l0 ∈ db.lessons, l0.id = lid ∧
          (∀ l2 ∈ lessonsOf db l0.module_id, l2.lesson_number ≤ l0.lesson_number) ∧
          db2.lessons = db.lessons.filter (fun l2 => !(l2.id == lid))) := by
  refine ⟨?_, ?_, ?_, ?_⟩
  · intro db ops
    induction ops generalizing db with
    | nil => intro h; exact h
    | cons op rest ih =>
      intro hinv
      have hstep : LessonInv (applyLessonOp db op) := by
        cases op with
        | start mid tid =>
          cases hc : start_lesson db mid tid with
          | ok res =>
            cases res with
            | mk db2 l =>
              simpa [applyLessonOp, hc] using (start_lesson_ok_spec hinv hc).1
          | error e => simpa [applyLessonOp, hc] using hinv
        | finish lid tid =>
          cases hc : finish_lesson db lid tid with
          | ok db2 => simpa [applyLessonOp, hc] using (finish_lesson_ok_spec hinv hc).1
          | error e => simpa [applyLessonOp, hc] using hinv
        | del lid tid =>
          cases hc : delete_lesson db lid tid with
          | ok db2 => simpa [applyLessonOp, hc] using (delete_lesson_ok_spec hinv hc).1
          | error e => simpa [applyLessonOp, hc] using hinv
      exact ih (applyLessonOp db op) hstep
  · intro db hinv mid
    refine ⟨hinv.2 mid, ?_⟩
    exact ((hinv.2 mid).nodup_iff).mpr (List.nodup_range' 1 _)
  · intro db mid tid db2 l hinv h
    exact (start_lesson_ok_spec hinv h).2.1
  · intro db lid tid db2 hinv h
    obtain ⟨l0, hmem, hid, hact, hmax, heq⟩ := (delete_lesson_ok_spec hinv h).2
    exact ⟨l0, hmem, hid, hmax, heq⟩

/-- Witness for C5: the fresh store satisfies the invariant, and it is
preserved across a concrete trace of starts, a finish and a tail delete. -/
theorem lesson_numbering_contiguous_witness :
    LessonInv dbLessonFresh ∧
    LessonInv (applyLessonOps dbLessonFresh
      [.start 1 1, .finish 1 1, .start 1 1, .del 2 1]) :=
  ⟨⟨by decide, fun mid => List.Perm.refl []⟩,
    lesson_numbering_contiguous.1 dbLessonFresh _
      ⟨by decide, fun mid => List.Perm.refl []⟩⟩

/-- C6: every failing credential — missing/malformed/expired/wrong-key
(decode error), payload missing sub or type, or a sub that does not parse to
an integer — makes `verify_token` fail with `unauthorized`; `verify_token`
never fails with any other error; and a decode-failing (e.g. expired) token
presented to the teacher- or admin-scoped dependency yields `unauthorized`,
not `forbidden`. -/
theorem verify_token_unauthorized :
    (∀ (d : DecodeResult) (e : ApiError),
      verify_token d = .error e → e = .unauthorized)
    ∧ verify_token .err = .error .unauthorized
    ∧ (∀ t : Option String, verify_token (.payload none t) = .error .unauthorized)
    ∧ (∀ s : String, verify_token (.payload (some s) none) = .error .unauthorized)
    ∧ (∀ s t : String, pyInt? s = none →
        verify_token (.payload (some s) (some t)) = .error .unauthorized)
    ∧ require_teacher .err = .error .unauthorized
    ∧ require_admin .err = .error .unauthorized := by
  refine ⟨?_, rfl, fun t => rfl, fun s => rfl, ?_, rfl, rfl⟩
  · intro d e h
    cases d with
    | err => exact (Except.error.inj h).symm
    | payload sub typ =>
      cases sub with
      | none => exact (Except.error.inj h).symm
      | some s =>
        cases typ with
        | none => exact (Except.error.inj h).symm
        | some t =>
          simp only [verify_token] at h
          cases hp : pyInt? s with
          | none =>
            rw [hp] at h
            exact (Except.error.inj h).symm
          | some uid =>
            rw [hp] at h
            exact absurd h (by simp)
  · intro s t hp
    simp only [verify_token]
    rw [hp]

/-- Witness for C6: the credential whose subject is the non-numeric string
"abc" is rejected with `unauthorized`. -/
theorem verify_token_unauthorized_witness :
    pyInt? "abc" = none ∧
    verify_token (.payload (some "abc") (some "teacher")) = .error .unauthorized :=
  ⟨by decide, verify_token_unauthorized.2.2.2.2.1 "abc" "teacher" (by decide)⟩

/-- C7 counterexample: teacher creation does NOT reject an email already used
by an admin — creating a teacher with the sole admin's email boss@x succeeds
and leaves the email belonging to both an admin and a teacher
simultaneously. -/
theorem create_teacher_ignores_admin_email :
    create_teacher (fun p => p) dbAdminOnly ⟨"T", "boss@x", "pw"⟩ 1 =
      .ok ({ dbAdminOnly with teachers := [⟨1, "T", "boss@x", "pw", 1⟩] },
           ⟨1, "T", "boss@x", "pw", 1⟩)
    ∧ (dbAdminOnly.admins.any (fun a => a.email == "boss@x")) = true := by
  refine ⟨rfl, by decide⟩

/-- C7 (amended): admin self-registration checks the Teacher table and never
succeeds for an email already held by a teacher (lower-cased comparison);
teacher creation, by contrast, performs no check against the Admin table —
it succeeds for any email not already in the Teacher table, regardless of
the Admin table. -/
theorem email_uniqueness_one_sided :
    (∀ (hash : String → String) (db : DB) (req : RegisterAdminRequest),
      (∃ t ∈ db.teachers, t.email = pyLower req.email) →
      ∀ res, register_admin hash db req ≠ .ok res)
    ∧ (∀ (hash : String → String) (db : DB) (req : RegisterAdminRequest)
        (t0 : Teacher), db.admins = [] →
        db.teachers.filter (fun t => t.email == pyLower req.email) = [t0] →
        register_admin hash db req = .error .conflict)
    ∧ (∀ (hash : String → String) (db : DB) (req : TeacherCreate)
        (admin_id : Nat),
        (db.teachers.any (fun t => t.email == req.email)) = false →
        create_teacher hash db req admin_id =
          .ok ({ db with teachers := db.teachers ++
                  [⟨freshTeacherId db, req.name, req.email, hash req.password,
                    admin_id⟩] },
               ⟨freshTeacherId db, req.name, req.email, hash req.password,
                admin_id⟩)) := by
  refine ⟨?_, ?_, ?_⟩
  · intro hash db req hex res
    rcases hex with ⟨t, ht, hemail⟩
    unfold register_admin
    cases h1 : oneOrNone db.admins with
    | error e => simp
    | ok o =>
      cases o with
      | some a => simp
      | none =>
        have htf : t ∈ db.teachers.filter (fun t2 => t2.email == pyLower req.email) :=
          List.mem_filter.mpr ⟨ht, by simp [hemail]⟩
        cases h2 : oneOrNone (db.teachers.filter
            (fun t2 => t2.email == pyLower req.email)) with
        | error e => simp
        | ok o2 =>
          cases o2 with
          | some t1 => simp
          | none =>
            have := oneOrNone_eq_none h2
            rw [this] at htf
            exact absurd htf (List.not_mem_nil t)
  · intro hash db req t0 hadm hfilter
    unfold register_admin
    rw [hadm, hfilter]
    rfl
  · intro hash db req admin_id hno
    unfold create_teacher
    rw [hno]
    rfl

/-- Witness for C7: with one teacher holding t@x and no admin, registering an
admin under T@X (lower-cased to t@x) fails with `conflict`. -/
theorem email_uniqueness_one_sided_witness :
    dbTeacherOnly.teachers.filter
      (fun t => t.email == pyLower "T@X") = [⟨1, "T", "t@x", "h", 1⟩]
    ∧ register_admin (fun p => p) dbTeacherOnly ⟨"A", "T@X", "pw"⟩ =
        .error .conflict :=
  ⟨by decide,
    email_uniqueness_one_sided.2.1 (fun p => p) dbTeacherOnly
      ⟨"A", "T@X", "pw"⟩ ⟨1, "T", "t@x", "h", 1⟩ (by decide) (by decide)⟩

/-- C8 counterexample: the claimed check-and-retry behavior never happens.
Calling `generate_unique_group_code` on the concrete store — with the default
"incremental" strategy, and likewise with the "random" one — raises
`NameError` at its very first `Group`-referencing query (the module never
imports `Group`), so no candidate is ever checked against the code set, no
retry occurs, and neither a fatal-on-exhaustion error nor any code at all is
ever produced. -/
theorem code_generation_raises_on_call :
    generate_unique_group_code (fun _ => "ABCDEF12") dbCodes 1 "incremental" =
      .error ()
    ∧ generate_unique_group_code (fun _ => "ABCDEF12") dbCodes 1 "random" =
      .error () := ⟨rfl, rfl⟩

/-- C8 (amended): `generate_unique_group_code` never checks a candidate and
never returns a code — every call, under every strategy, raises `NameError`
at the first query referencing the undefined `Group` (the count query for the
deterministic strategies, the existence check for the random one), and the
unchecked random fallback of lines 152-154 is unreachable. -/
theorem code_generation_always_raises (rng : Nat → String) (db : DB)
    (tid : Nat) (strat : String) :
    generate_unique_group_code rng db tid strat = .error () := by
  have h : generate_unique_group_code rng db tid strat =
      Except.bind (candidateCode rng db tid strat 0) (fun code =>
        Except.bind (groupByCodeExpr db code) (fun existing =>
          match existing with
          | some _ => genLoop rng db tid strat 49 (0 + 1)
          | none => pure code)) := rfl
  rw [h]
  cases hc : candidateCode rng db tid strat 0 with
  | error e =>
    cases e
    rfl
  | ok code => rfl

end GroupTable
